import Mathlib

/-!
Verification development for the record-normalization pipeline of
gs-excel-transformation (src/app/src/utils.py).

The pipeline is shallowly embedded: a pandas DataFrame becomes a `Table`
(a list of named, dtyped columns together with rows of name/cell pairs),
Python exceptions become the `PError` error type threaded through
`Except`, Python floats become exact rationals, and pandas timestamps
become a six-field `DateTime` compared through a strictly monotone key.
Every definition follows the corresponding line(s) of utils.py; deviations
forced by the embedding (e.g. float repr round-trips) are noted in the
doc comment of the definition concerned.
-/

/-- Timestamp value as produced by datetime.strptime / pd.to_datetime on a
"YYYY-MM-DD HH:MM:SS" string: six calendar fields. -/
structure DateTime where
  year : Nat
  month : Nat
  day : Nat
  hour : Nat
  minute : Nat
  second : Nat
deriving DecidableEq

/-- Strictly monotone linearization of a validated DateTime (month ≤ 12,
day ≤ 31, hour ≤ 23, minute, second ≤ 59), used for all comparisons; it
agrees with lexicographic field order on validated values. -/
def DateTime.key (d : DateTime) : Nat :=
  ((((d.year * 13 + d.month) * 32 + d.day) * 24 + d.hour) * 60 + d.minute) * 60 + d.second

/-- Split of a character list at every occurrence of a separator, the
character-level counterpart of str.split / String.splitOn for the
one-character separators the code uses (space, dash, colon, dot).  String
operations are modelled over the character list so that closed runs of the
pipeline reduce inside the kernel. -/
def splitOnChar (sep : Char) : List Char → List (List Char)
  | [] => [[]]
  | c :: cs =>
    let r := splitOnChar sep cs
    if c = sep then [] :: r
    else
      match r with
      | [] => [[c]]
      | g :: gs => (c :: g) :: gs

/-- Accumulator loop of the decimal-digit parser. -/
def charsToNatCore : List Char → Nat → Option Nat
  | [], acc => some acc
  | c :: cs, acc =>
    if c.isDigit then charsToNatCore cs (acc * 10 + (c.toNat - 48)) else none

/-- Parse of a non-empty all-digit character list (int(s) on a field of the
timestamp, String.toNat? at character level). -/
def charsToNat? (l : List Char) : Option Nat :=
  match l with
  | [] => none
  | _ => charsToNatCore l 0

/-- Model of datetime.strptime(s, "%Y-%m-%d %H:%M:%S") (utils.py line 119)
and of pd.to_datetime on a cell of that shape (line 122).  Field bounds are
validated as in CPython, except that day-of-month validation is the uniform
bound 1..31 rather than per-month calendar lengths; no claim depends on the
difference. -/
def strptime (s : String) : Option DateTime :=
  match splitOnChar ' ' s.data with
  | [ds, ts] =>
    match splitOnChar '-' ds, splitOnChar ':' ts with
    | [ys, ms, dds], [hs, mis, ss] =>
      match charsToNat? ys, charsToNat? ms, charsToNat? dds,
            charsToNat? hs, charsToNat? mis, charsToNat? ss with
      | some y, some mo, some dd, some h, some mi, some se =>
        if 1 ≤ mo ∧ mo ≤ 12 ∧ 1 ≤ dd ∧ dd ≤ 31 ∧ h ≤ 23 ∧ mi ≤ 59 ∧ se ≤ 59 then
          some ⟨y, mo, dd, h, mi, se⟩
        else none
      | _, _, _, _, _, _ => none
    | _, _ => none
  | _ => none

/-- Cell value of a DataFrame: a Python string, int, float (exact rational
in the model), parsed timestamp, or a missing value (NaN/NaT/None). -/
inductive Cell where
  | str (s : String)
  | int (n : Int)
  | float (q : ℚ)
  | time (d : DateTime)
  | na
deriving DecidableEq

/-- Column dtype, as far as the code inspects it (the dtype guard at
utils.py line 192 checks for "object" and "float64"). -/
inductive Dtype where
  | int64
  | float64
  | object
  | datetime
deriving DecidableEq

/-- Python exception kinds raised by the code paths under study. -/
inductive PError where
  | keyError (msg : String)
  | valueError (msg : String)
  | typeError (msg : String)
  | runtimeError (msg : String)
deriving DecidableEq

/-- Message carried by an exception (str(e) in Python). -/
def PError.msg : PError → String
  | .keyError m => m
  | .valueError m => m
  | .typeError m => m
  | .runtimeError m => m

/-- Row entry: a cell tagged with its column name.  Tagging each cell with
its name mirrors positional access through the column index and keeps the
embedding faithful to name-based pandas indexing. -/
abbrev Entry := String × Cell

/-- In-memory DataFrame: ordered dtyped columns plus rows.  Each row lists
its cells in column order, tagged with the column names. -/
structure Table where
  cols : List (String × Dtype)
  rows : List (List Entry)
deriving DecidableEq

/-- Column labels of the table, in order (df.columns). -/
def colNames (t : Table) : List String :=
  t.cols.map (fun p => p.1)

/-- Membership test for a column label (col in df.columns). -/
def hasCol (t : Table) (n : String) : Bool :=
  (colNames t).contains n

/-- Dtype of the (first) column labelled n; object if absent (the code only
consults dtypes of columns it has checked to exist). -/
def dtypeOf (t : Table) (n : String) : Dtype :=
  (((t.cols.find? (fun p => p.1 == n)).map (fun p => p.2)).getD Dtype.object)

/-- Cell of a row at column label n (df.loc[row, n]); first match. -/
def rlookup (r : List Entry) (n : String) : Option Cell :=
  (r.find? (fun p => p.1 == n)).map (fun p => p.2)

/-- Test used by df["S/N"].isin(exclude_values): true iff the cell is the
string value of one of the listed serial numbers.  pandas isin compares
values, so NaN and numeric cells never match a list of strings. -/
def cellInList (c : Cell) (ex : List String) : Bool :=
  match c with
  | .str s => ex.contains s
  | _ => false

/-- Row predicate of the exclusion filter masks (utils.py lines 105, 127). -/
def snMask (r : List Entry) (ex : List String) : Bool :=
  cellInList ((rlookup r "S/N").getD Cell.na) ex

/-- Exclusion filter df[~df["S/N"].isin(exclude_values)] (utils.py lines
104-105 and 126-127); KeyError when the serial-number column is absent. -/
def snFilter (t : Table) (ex : List String) : Except PError Table :=
  if hasCol t "S/N" then
    Except.ok { t with rows := t.rows.filter (fun r => !(snMask r ex)) }
  else
    Except.error (PError.keyError "S/N")

/-- Exclusion filter together with its truthiness guard (utils.py lines
104, 126): the filter only runs for a non-empty exclusion list. -/
def snFilterOpt (t : Table) (ex : List String) : Except PError Table :=
  if ex ≠ [] then snFilter t ex else Except.ok t

/-- Column drop df.drop(columns=drop_columns) (utils.py lines 116, 245);
with the default errors="raise" this is a KeyError as soon as any listed
column is absent, otherwise all listed columns are removed. -/
def dropColumnsF (t : Table) (names : List String) : Except PError Table :=
  if names.all (fun n => hasCol t n) then
    Except.ok
      { cols := t.cols.filter (fun p => !(names.contains p.1)),
        rows := t.rows.map (fun r => r.filter (fun p => !(names.contains p.1))) }
  else
    Except.error (PError.keyError "drop columns not found in axis")

/-- Column insertion df.insert(0, "Id", np.nan) (utils.py lines 117, 246):
prepends an all-NaN float64 column, raising if "Id" already exists. -/
def insertIdCol (t : Table) : Except PError Table :=
  if hasCol t "Id" then
    Except.error (PError.valueError "cannot insert Id, already exists")
  else
    Except.ok
      { cols := ("Id", Dtype.float64) :: t.cols,
        rows := t.rows.map (fun r => ("Id", Cell.na) :: r) }

/-- Conversion of one cell by pd.to_datetime (utils.py lines 122, 251).
Strings are parsed with the source format; timestamps pass through; NaN
becomes NaT (kept as na).  pandas would interpret a bare number as an epoch
offset; that conversion is not modelled and is mapped to an error, and no
claim exercises it. -/
def toDatetimeCell (c : Cell) : Except PError Cell :=
  match c with
  | .str s =>
    match strptime s with
    | some d => Except.ok (Cell.time d)
    | none => Except.error (PError.valueError ("Unknown datetime string format: " ++ s))
  | .time d => Except.ok (Cell.time d)
  | .na => Except.ok Cell.na
  | .int _ => Except.error (PError.valueError "epoch-offset to_datetime not modelled")
  | .float _ => Except.error (PError.valueError "epoch-offset to_datetime not modelled")

/-- Monadic cell update of the entries of one named column inside a row,
leaving every other entry untouched; the first failure aborts, as the
elementwise pandas conversions do. -/
def mapEntryM (n : String) (f : Cell → Except PError Cell) :
    List Entry → Except PError (List Entry)
  | [] => Except.ok []
  | p :: ps =>
    if p.1 == n then do
      let c ← f p.2
      let rest ← mapEntryM n f ps
      pure ((p.1, c) :: rest)
    else do
      let rest ← mapEntryM n f ps
      pure (p :: rest)

/-- Monadic row-by-row update of a frame, first failure aborting. -/
def rowsMapM (F : List Entry → Except PError (List Entry)) :
    List (List Entry) → Except PError (List (List Entry))
  | [] => Except.ok []
  | r :: rs => do
    let r2 ← F r
    let rs2 ← rowsMapM F rs
    pure (r2 :: rs2)

/-- Column assignment df[n] = pd.to_datetime(df[n]) (utils.py lines 122,
251): parses every cell of the named column and re-dtypes it to datetime;
KeyError when the column is absent. -/
def toDatetimeColF (t : Table) (n : String) : Except PError Table :=
  if hasCol t n then do
    let rows ← rowsMapM (mapEntryM n toDatetimeCell) t.rows
    pure
      { cols := t.cols.map (fun p => (p.1, if p.1 == n then Dtype.datetime else p.2)),
        rows := rows }
  else
    Except.error (PError.keyError n)

/-- Comparison df[n] > selected_datetime on one cell: true only for parsed
timestamps strictly after the cutoff (NaT compares false in pandas). -/
def timeAfter (cutoff : DateTime) (c : Cell) : Bool :=
  match c with
  | .time d => cutoff.key < d.key
  | _ => false

/-- Row filter df[df[n] > selected_datetime] (utils.py lines 123, 252).
The pipeline only calls this immediately after assigning column n, so the
column is always present. -/
def timeFilterF (t : Table) (n : String) (cutoff : DateTime) : Table :=
  { t with rows := t.rows.filter (fun r => timeAfter cutoff ((rlookup r n).getD Cell.na)) }

/-- Sort key of a row for sort_values(by=n): the timestamp key of its cell
in column n (all rows reaching the sort hold parsed timestamps there). -/
def rowKey (n : String) (r : List Entry) : Nat :=
  match rlookup r n with
  | some (Cell.time d) => d.key
  | _ => 0

/-- Insertion of a row into a list already sorted non-increasingly by the
key: the row goes in front of the first element whose key does not exceed
its own, so equal keys keep the earlier row first (stable descending). -/
def insertDesc (key : List Entry → Nat) (r : List Entry) :
    List (List Entry) → List (List Entry)
  | [] => [r]
  | x :: xs => if key x ≤ key r then r :: x :: xs else x :: insertDesc key r xs

/-- Stable descending insertion sort by a numeric key. -/
def insertionSortDesc (key : List Entry → Nat) : List (List Entry) → List (List Entry)
  | [] => []
  | r :: rs => insertDesc key r (insertionSortDesc key rs)

/-- Sort df.sort_values(by=n, ascending=False) (utils.py lines 129, 258),
modelled as a deterministic descending sort (a stable structural insertion
sort).  The code leaves kind at the pandas default "quicksort", which
guarantees only a permutation ordered non-increasingly by the key — not
stability; `sortValuesSpec` below states exactly that contract, and the
claims about tie order are settled against it rather than against this
particular admissible implementation. -/
def sortDescBy (n : String) (t : Table) : Table :=
  { t with rows := insertionSortDesc (rowKey n) t.rows }

/-- Contract of df.sort_values(by=n, ascending=False) with the default
(unstable) quicksort kind: the output is some permutation of the rows that
is non-increasing in the key.  Nothing more is promised about tie order. -/
def sortValuesSpec (n : String) (input output : List (List Entry)) : Prop :=
  output.Perm input ∧ output.Pairwise (fun a b => rowKey n b ≤ rowKey n a)

/-- Stable-descending-tie property claimed by the spec: rows with equal
keys keep their input order, i.e. the output is exactly the stable
descending sort of the input. -/
def stableDescSort (n : String) (input output : List (List Entry)) : Prop :=
  output = insertionSortDesc (rowKey n) input

/-- Column append df[n] = "NULL" for an absent column n (utils.py line
163): pandas creates a new object-dtyped column at the end of the frame. -/
def appendCol (t : Table) (n : String) (c : Cell) : Table :=
  { cols := t.cols ++ [(n, Dtype.object)],
    rows := t.rows.map (fun r => r ++ [(n, c)]) }

/-- Loop at utils.py lines 161-163: every expected column absent from the
frame is created with the string value "NULL" (metric variant only). -/
def ensureCols (t : Table) (order : List String) : Table :=
  order.foldl (fun acc n => if hasCol acc n then acc else appendCol acc n (Cell.str "NULL")) t

/-- Column selection/reorder df[column_order] (utils.py lines 165, 288):
KeyError when any requested column is absent, otherwise the columns are
returned in the requested order. -/
def selectColsF (t : Table) (order : List String) : Except PError Table :=
  if order.all (fun n => hasCol t n) then
    Except.ok
      { cols := order.map (fun n => (n, dtypeOf t n)),
        rows := t.rows.map (fun r => order.map (fun n => (n, (rlookup r n).getD Cell.na))) }
  else
    Except.error (PError.keyError "columns not in index")

/-- Crystallization-column overwrite (utils.py lines 170-175, 293-298):
df_test[cols] = df_test[cols].astype("object") followed by
df_test.loc[:, cols] = adjusted_datetime sets every cell of the named
columns to the caller-supplied adjusted timestamp and re-dtypes them. -/
def setColsF (t : Table) (names : List String) (c : Cell) : Except PError Table :=
  if names.all (fun n => hasCol t n) then
    Except.ok
      { cols := t.cols.map (fun p => (p.1, if names.contains p.1 then Dtype.object else p.2)),
        rows := t.rows.map (fun r =>
          r.map (fun p => (p.1, if names.contains p.1 then c else p.2))) }
  else
    Except.error (PError.keyError "columns not in index")

/-- Cellwise effect of df.replace("-", 0) (utils.py lines 177, 300): every
cell that equals the literal string "-" becomes the Python int 0. -/
def replaceDashCell (c : Cell) : Cell :=
  if c = Cell.str "-" then Cell.int 0 else c

/-- Table-wide placeholder replacement df.replace("-", 0). -/
def replaceDash (t : Table) : Table :=
  { t with rows := t.rows.map (fun r => r.map (fun p => (p.1, replaceDashCell p.2))) }

/-- Cellwise effect of df.fillna("NULL") (utils.py lines 178, 301). -/
def fillNullCell (c : Cell) : Cell :=
  if c = Cell.na then Cell.str "NULL" else c

/-- Columns whose cells include a missing value; fillna with a string turns
such columns into object dtype. -/
def colHasNa (t : Table) (n : String) : Bool :=
  t.rows.any (fun r => (rlookup r n).getD Cell.na == Cell.na)

/-- Table-wide df.fillna("NULL") (utils.py lines 178, 301): missing cells
become the string sentinel and any column that held one becomes object. -/
def fillNullF (t : Table) : Table :=
  { cols := t.cols.map (fun p => (p.1, if colHasNa t p.1 then Dtype.object else p.2)),
    rows := t.rows.map (fun r => r.map (fun p => (p.1, fillNullCell p.2))) }

/-- Thousands-separator strip s.str.replace(",", "", regex=False): every
comma character of the cell value is removed. -/
def stripCommas (s : String) : String :=
  String.mk (s.data.filter (fun c => !(c == ',')))

/-- Decimal parser for an unsigned Python float literal: digits with an
optional fractional part.  This is the fragment of float()/pd.to_numeric
syntax the data can exercise; scientific notation and inf/nan spellings
are not modelled, and no claim exercises them. -/
def parseDecimalPos (l : List Char) : Option ℚ :=
  match splitOnChar '.' l with
  | [a] => (charsToNat? a).map (fun n => ((n : ℚ)))
  | [a, b] =>
    match (if a = [] then some 0 else charsToNat? a),
          (if b = [] then some 0 else charsToNat? b) with
    | some n, some f => some ((n : ℚ) + (f : ℚ) / ((10 : ℚ) ^ b.length))
    | _, _ => none
  | _ => none

/-- Decimal parser with an optional leading minus sign (float(s)). -/
def parseDecimal (s : String) : Option ℚ :=
  match s.data with
  | '-' :: rest => (parseDecimalPos rest).map (fun q => -q)
  | l => parseDecimalPos l

/-- Gallon-to-liter constant (utils.py line 10). -/
def gallon : ℚ := 3.785411784

/-- Square-feet-to-square-meter constant (utils.py line 11). -/
def feet_squared : ℚ := 0.09290304

/-- Rounding to n decimal places, Series.round(n).  pandas rounds ties to
even; the conversion constants never produce a tie at the rounded digit on
the values the claims exercise, so round-half-up is used. -/
def roundTo (q : ℚ) (n : Nat) : ℚ :=
  ((round (q * (10 : ℚ) ^ n) : ℤ) : ℚ) / (10 : ℚ) ^ n

/-- Cellwise metric numeric cleanup (utils.py lines 193-199):
col.astype(str).str.replace(",", "", regex=False).replace("0.00",
"0").replace("100.00", "100").astype(float).  String cells are
comma-stripped, edge-normalized by whole-cell match and float-parsed;
int/float cells round-trip through their repr unchanged (str(x) carries no
comma and never equals "0.00"/"100.00", and float(str(x)) = x in Python);
a timestamp repr does not parse as a float. -/
def cleanupCellMetric (c : Cell) : Except PError Cell :=
  match c with
  | .str s =>
    let s1 := stripCommas s
    let s2 := if s1 = "0.00" then "0" else if s1 = "100.00" then "100" else s1
    match parseDecimal s2 with
    | some q => Except.ok (Cell.float q)
    | none => Except.error (PError.valueError ("could not convert string to float: " ++ s2))
  | .int n => Except.ok (Cell.float ((n : ℚ)))
  | .float q => Except.ok (Cell.float q)
  | .na => Except.ok Cell.na
  | .time _ => Except.error (PError.valueError "could not convert string to float: Timestamp")

/-- Guarded per-column metric cleanup (utils.py lines 191-200): the
transformation runs only when the column dtype is object or float64, and
re-dtypes the column to float64. -/
def cleanupColMetricF (t : Table) (n : String) : Except PError Table :=
  if hasCol t n then
    if dtypeOf t n == Dtype.object || dtypeOf t n == Dtype.float64 then do
      let rows ← rowsMapM (mapEntryM n cleanupCellMetric) t.rows
      pure
        { cols := t.cols.map (fun p => (p.1, if p.1 == n then Dtype.float64 else p.2)),
          rows := rows }
    else pure t
  else Except.error (PError.keyError n)

/-- Numeric-but-textual columns of the metric variant (utils.py 181-188). -/
def columns_with_comma_or_pct : List String :=
  ["Work efficiency (㎡/h)", "Actual cleaning area(㎡)", "Cleaning plan area (㎡)",
   "Brush (%)", "Filter (%)", "Squeegee(%)"]

/-- Metric cleanup loop (utils.py lines 191-200). -/
def cleanupMetricF (t : Table) : Except PError Table :=
  columns_with_comma_or_pct.foldlM cleanupColMetricF t

/-- Cellwise imperial water conversion (utils.py line 314):
(df["Water usage (gal)"] * gallon).apply(pd.to_numeric).round(4).  The
multiplication happens before any parsing, so a string cell (including the
"NULL" sentinel) raises a TypeError, exactly as str * float does in
Python; numeric cells are converted and rounded to 4 places. -/
def caWaterCell (c : Cell) : Except PError Cell :=
  match c with
  | .int n => Except.ok (Cell.float (roundTo ((n : ℚ) * gallon) 4))
  | .float q => Except.ok (Cell.float (roundTo (q * gallon) 4))
  | .na => Except.ok Cell.na
  | .str s => Except.error (PError.typeError ("cannot multiply str by float: " ++ s))
  | .time _ => Except.error (PError.typeError "unsupported operand type for *")

/-- Cellwise imperial area conversion for the comma columns (utils.py
lines 309-317): astype(str).str.replace(",", "") then pd.to_numeric, the
multiplication by feet_squared, a value-preserving str round-trip (line
316 whole-cell replace of "," never matches a float repr) and round(3).
String cells are comma-stripped then parsed; numeric cells round-trip
through repr unchanged. -/
def caCommaCell (c : Cell) : Except PError Cell :=
  match c with
  | .str s =>
    match parseDecimal (stripCommas s) with
    | some q => Except.ok (Cell.float (roundTo (q * feet_squared) 3))
    | none =>
      Except.error (PError.valueError ("Unable to parse string " ++ stripCommas s))
  | .int n => Except.ok (Cell.float (roundTo ((n : ℚ) * feet_squared) 3))
  | .float q => Except.ok (Cell.float (roundTo (q * feet_squared) 3))
  | .na => Except.ok Cell.na
  | .time _ => Except.error (PError.valueError "Unable to parse Timestamp")

/-- Cellwise imperial percentage coercion (utils.py line 318):
Series.replace("0.0", "0").replace("100.00", "100").astype(float).  The
whole-cell replaces only match the literal strings; there is no comma
stripping on this path, so a comma-bearing string fails the float
coercion. -/
def caPctCell (c : Cell) : Except PError Cell :=
  match c with
  | .str s =>
    let s1 := if s = "0.0" then "0" else if s = "100.00" then "100" else s
    match parseDecimal s1 with
    | some q => Except.ok (Cell.float q)
    | none => Except.error (PError.valueError ("could not convert string to float: " ++ s1))
  | .int n => Except.ok (Cell.float ((n : ℚ)))
  | .float q => Except.ok (Cell.float q)
  | .na => Except.ok Cell.na
  | .time _ => Except.error (PError.valueError "could not convert string to float: Timestamp")

/-- Unguarded per-column cell transformation with a float64 result dtype,
used by the imperial cleanup steps (no dtype guard appears on that path). -/
def applyColF (t : Table) (n : String) (f : Cell → Except PError Cell) :
    Except PError Table :=
  if hasCol t n then do
    let rows ← rowsMapM (mapEntryM n f) t.rows
    pure
      { cols := t.cols.map (fun p => (p.1, if p.1 == n then Dtype.float64 else p.2)),
        rows := rows }
  else Except.error (PError.keyError n)

/-- Comma columns of the imperial variant (utils.py lines 303-307). -/
def columns_with_comma : List String :=
  ["Work efficiency (ft²/h)", "Actual cleaning area(ft²)", "Cleaning plan area (ft²)"]

/-- Percentage columns of the imperial variant (utils.py line 308). -/
def columns_with_pct : List String :=
  ["Brush (%)", "Filter (%)", "Squeegee(%)"]

/-- Imperial numeric cleanup and unit conversion (utils.py lines 303-318),
in the order the code evaluates fallibly: the comma strip of lines 309-311
itself never raises, so the first failure point is the water conversion of
line 314, then the area conversions of lines 315-317 column by column,
then the percentage coercions of line 318. -/
def cleanupCAF (t : Table) : Except PError Table := do
  let t ← applyColF t "Water usage (gal)" caWaterCell
  let t ← columns_with_comma.foldlM (fun acc n => applyColF acc n caCommaCell) t
  columns_with_pct.foldlM (fun acc n => applyColF acc n caPctCell) t

/-- Uploaded file as the reader sees it: its name and the outcome of
parsing its byte stream into a frame (an error message when the bytes do
not parse).  CSV and spreadsheet bytes are not distinguished beyond this
outcome; no claim depends on the difference. -/
structure PyFile where
  name : String
  parsed : Except String Table

/-- Extension check file.name.endswith(ext), at character level. -/
def strEndsWith (s pat : String) : Bool :=
  pat.data.isSuffixOf s.data

/-- Body of the try block of read_file (utils.py lines 64-70): dispatch on
the file-name extension, re-raising the parser failure for a supported
extension and raising ValueError for an unsupported one. -/
def read_file_inner (f : PyFile) : Except PError Table :=
  if strEndsWith f.name ".csv" || (strEndsWith f.name ".xls" || strEndsWith f.name ".xlsx") then
    match f.parsed with
    | Except.ok t => Except.ok t
    | Except.error m => Except.error (PError.valueError m)
  else
    Except.error (PError.valueError ("Unsupported file type: " ++ f.name))

/-- Function read_file (utils.py lines 49-72).  The except clause at lines
71-72 catches every exception of the try block — including the ValueError
raised for an unsupported extension at line 70 — and re-raises it as a
RuntimeError wrapping the message. -/
def read_file (f : PyFile) : Except PError Table :=
  match read_file_inner f with
  | Except.ok t => Except.ok t
  | Except.error e =>
    Except.error (PError.runtimeError ("An error occurred while reading the file: " ++ e.msg))

/-- Administrative columns dropped by the metric variant (utils.py 108-115). -/
def drop_columns_metric : List String :=
  ["Total time", "Task status", "Plan running time (s)", "Uncleaned area (㎡)",
   "Task start mode", "Remarks"]

/-- Administrative columns dropped by the imperial variant (utils.py 237-244). -/
def drop_columns_ca : List String :=
  ["Total time", "Task status", "Plan running time (s)", "Uncleaned area (ft²)",
   "Task start mode", "Remarks"]

/-- Canonical source-column order of the metric variant (utils.py 133-158). -/
def column_order_metric : List String :=
  ["Id", "Robot name", "S/N", "Map name", "Cleaning plan", "User", "Task start time",
   "End time", "Task completion (%)", "Actual cleaning area(㎡)", "Total time (h)",
   "Water usage (L)", "Brush (%)", "Filter (%)", "Squeegee(%)",
   "Planned crystallization area (㎡)", "Actual crystallization area (㎡)",
   "Cleaning plan area (㎡)", "Start battery level (%)", "End battery level (%)",
   "Receive task report time", "Task type", "Download link", "Work efficiency (㎡/h)"]

/-- Canonical source-column order of the imperial variant (utils.py 262-287). -/
def column_order_ca : List String :=
  ["Id", "Robot name", "S/N", "Map name", "Cleaning plan", "User", "Task start time",
   "End time", "Task completion (%)", "Actual cleaning area(ft²)", "Total time (h)",
   "Water usage (gal)", "Brush (%)", "Filter (%)", "Squeegee(%)",
   "Planned crystallization area (ft²)", "Actual crystallization area (ft²)",
   "Cleaning plan area (ft²)", "Start battery level (%)", "End battery level (%)",
   "Receive task report time", "Task type", "Download link", "Work efficiency (ft²/h)"]

/-- Crystallization columns overwritten by the metric variant (utils.py 170-173). -/
def columns_to_update_metric : List String :=
  ["Planned crystallization area (㎡)", "Actual crystallization area (㎡)"]

/-- Crystallization columns overwritten by the imperial variant (utils.py 293-296). -/
def columns_to_update_ca : List String :=
  ["Planned crystallization area (ft²)", "Actual crystallization area (ft²)"]

/-- Cutoff parse datetime.strptime(selected_datetime_str, "%Y-%m-%d %H:%M:%S")
(utils.py lines 119, 248), raising ValueError on a mismatch. -/
def parseCutoff (s : String) : Except PError DateTime :=
  match strptime s with
  | some d => Except.ok d
  | none => Except.error (PError.valueError ("time data does not match format: " ++ s))

/-- Function process_data (utils.py lines 76-202), the metric unit-profile
pipeline, step for step in source order: read, optional exclusion filter,
drop of administrative columns, Id insertion, cutoff parse, report-time
parse, cutoff filter, second optional exclusion filter, descending sort
(reset_index only renumbers the positional index and has no counterpart
here), synthesis of absent expected columns, selection, crystallization
overwrite, placeholder replace, fillna, numeric cleanup. -/
def process_data (file : PyFile) (selected_datetime_str : String)
    (adjusted_datetime : DateTime) (exclude_values : List String) :
    Except PError Table := do
  let df ← read_file file
  let df ← snFilterOpt df exclude_values
  let df ← dropColumnsF df drop_columns_metric
  let df ← insertIdCol df
  let selected_datetime ← parseCutoff selected_datetime_str
  let df ← toDatetimeColF df "Receive task report time"
  let df := timeFilterF df "Receive task report time" selected_datetime
  let df ← snFilterOpt df exclude_values
  let df := sortDescBy "Receive task report time" df
  let df := ensureCols df column_order_metric
  let df ← selectColsF df column_order_metric
  let df ← setColsF df columns_to_update_metric (Cell.time adjusted_datetime)
  let df := fillNullF (replaceDash df)
  cleanupMetricF df

/-- Function process_ca_data (utils.py lines 205-320), the imperial
unit-profile pipeline.  It mirrors process_data except for the imperial
drop list, column order and cleanup, and — notably — it has no
counterpart of the lines 161-163 loop: absent expected columns are not
synthesized before the selection at line 288. -/
def process_ca_data (file : PyFile) (selected_datetime_str : String)
    (adjusted_datetime : DateTime) (exclude_values : List String) :
    Except PError Table := do
  let df ← read_file file
  let df ← snFilterOpt df exclude_values
  let df ← dropColumnsF df drop_columns_ca
  let df ← insertIdCol df
  let selected_datetime ← parseCutoff selected_datetime_str
  let df ← toDatetimeColF df "Receive task report time"
  let df := timeFilterF df "Receive task report time" selected_datetime
  let df ← snFilterOpt df exclude_values
  let df := sortDescBy "Receive task report time" df
  let df ← selectColsF df column_order_ca
  let df ← setColsF df columns_to_update_ca (Cell.time adjusted_datetime)
  let df := fillNullF (replaceDash df)
  cleanupCAF df

/-- Spec-side variant of process_data for the single-vs-double exclusion
comparison: the second application of the exclusion filter (utils.py lines
126-127) is removed, everything else is identical.  This definition
follows the specification wording, not the source, and is compared with
process_data in the claim about the exclusion filter. -/
def process_data_single (file : PyFile) (selected_datetime_str : String)
    (adjusted_datetime : DateTime) (exclude_values : List String) :
    Except PError Table := do
  let df ← read_file file
  let df ← snFilterOpt df exclude_values
  let df ← dropColumnsF df drop_columns_metric
  let df ← insertIdCol df
  let selected_datetime ← parseCutoff selected_datetime_str
  let df ← toDatetimeColF df "Receive task report time"
  let df := timeFilterF df "Receive task report time" selected_datetime
  let df := sortDescBy "Receive task report time" df
  let df := ensureCols df column_order_metric
  let df ← selectColsF df column_order_metric
  let df ← setColsF df columns_to_update_metric (Cell.time adjusted_datetime)
  let df := fillNullF (replaceDash df)
  cleanupMetricF df

/-- Rename dictionary cols_to_rename (utils.py lines 14-45). -/
def cols_to_rename : List (String × String) :=
  [("Id", "id"), ("Robot name", "robot_name"), ("S/N", "serial_number"),
   ("Map name", "map_name"), ("Cleaning plan", "task_name"), ("User", "user"),
   ("Task start time", "start_time"), ("End time", "end_time"),
   ("Task completion (%)", "task_completion"),
   ("Actual cleaning area(㎡)", "cleaning_area"),
   ("Actual cleaning area(ft²)", "cleaning_area"),
   ("Total time (h)", "total_time"), ("Water usage (L)", "water_usage"),
   ("Water usage (gal)", "water_usage"), ("Brush (%)", "brush"),
   ("Filter (%)", "filter_element"), ("Squeegee(%)", "squeegee"),
   ("Planned crystallization area (㎡)", "created_at"),
   ("Planned crystallization area (ft²)", "created_at"),
   ("Actual crystallization area (㎡)", "updated_at"),
   ("Actual crystallization area (ft²)", "updated_at"),
   ("Cleaning plan area (㎡)", "area_planned"),
   ("Cleaning plan area (ft²)", "area_planned"),
   ("Start battery level (%)", "start_battery_level"),
   ("End battery level (%)", "end_battery_level"),
   ("Receive task report time", "task_report_received"),
   ("Task type", "cleaning_mode"), ("Download link", "report_link"),
   ("Work efficiency (㎡/h)", "performance"),
   ("Work efficiency (ft²/h)", "performance")]

/-- Rename of one column label through cols_to_rename; labels outside the
dictionary are kept, as df.rename does. -/
def renameName (n : String) : String :=
  (((cols_to_rename.find? (fun p => p.1 == n)).map (fun p => p.2)).getD n)

/-- Column rename df.rename(columns=cols_to_rename) (utils.py line 439). -/
def renameColsF (t : Table) : Table :=
  { cols := t.cols.map (fun p => (renameName p.1, p.2)),
    rows := t.rows.map (fun r => r.map (fun p => (renameName p.1, p.2))) }

/-- Column assignment df[n] = "NULL": overwrite every cell of an existing
column (re-dtyping it to object), or append a fresh object column. -/
def setOrAppendCol (t : Table) (n : String) (c : Cell) : Table :=
  if hasCol t n then
    { cols := t.cols.map (fun p => (p.1, if p.1 == n then Dtype.object else p.2)),
      rows := t.rows.map (fun r => r.map (fun p => (p.1, if p.1 == n then c else p.2))) }
  else appendCol t n c

/-- Function addPauseTimeNullCol (utils.py lines 323-342): when both
total_time and water_usage exist, create a pause_time column of "NULL",
remove its label from the label list, re-insert it right after total_time
and reselect; otherwise return the frame unchanged.  The reselect cannot
fail, since every label of the rebuilt list belongs to the frame; the
error branch of the match is unreachable. -/
def addPauseTimeNullCol (t : Table) : Table :=
  if hasCol t "total_time" && hasCol t "water_usage" then
    let t1 := setOrAppendCol t "pause_time" (Cell.str "NULL")
    let cs := (colNames t1).erase "pause_time"
    let idx := (cs.indexOf "total_time") + 1
    let cs2 := cs.take idx ++ "pause_time" :: cs.drop idx
    match selectColsF t1 cs2 with
    | Except.ok t2 => t2
    | Except.error _ => t1
  else t

/-- Function addTwoNullCols (utils.py lines 345-358): job_id and vendor
columns of "NULL" (the NaN mentioned by its docstring never appears: the
assignments store the string directly). -/
def addTwoNullCols (t : Table) : Table :=
  setOrAppendCol (setOrAppendCol t "job_id" (Cell.str "NULL")) "vendor" (Cell.str "NULL")

/-- Function process_uploaded_file (utils.py lines 409-448): variant
dispatch on the server identity, canonical rename, conditional pause_time
insertion for GS SGV2 / GS AUS, and job_id/vendor columns for every server
other than GS SGV1. -/
def process_uploaded_file (uploaded_file : PyFile) (selected_datetime : String)
    (adjusted_datetime : DateTime) (selected_server : String)
    (exclude_values : List String) : Except PError Table := do
  let df ←
    if selected_server == "GS CA" then
      process_ca_data uploaded_file selected_datetime adjusted_datetime exclude_values
    else
      process_data uploaded_file selected_datetime adjusted_datetime exclude_values
  let df := renameColsF df
  let df :=
    if selected_server == "GS SGV2" || selected_server == "GS AUS" then
      addPauseTimeNullCol df
    else df
  let df := if selected_server ≠ "GS SGV1" then addTwoNullCols df else df
  pure df

/-- Names of the entries of one row, in order. -/
def rowNames (r : List Entry) : List String :=
  r.map (fun p => p.1)

/-- Sort key carried by one cell (timestamp key, or 0 for non-times). -/
def cellKey (c : Cell) : Nat :=
  match c with
  | Cell.time d => d.key
  | _ => 0

/-- Canonical column order after the rename and the pause_time insertion
(the renamed metric order with "pause_time" spliced in right after
"total_time"). -/
def pause_inserted_order : List String :=
  ["id", "robot_name", "serial_number", "map_name", "task_name", "user",
   "start_time", "end_time", "task_completion", "cleaning_area", "total_time",
   "pause_time", "water_usage", "brush", "filter_element", "squeegee",
   "created_at", "updated_at", "area_planned", "start_battery_level",
   "end_battery_level", "task_report_received", "cleaning_mode", "report_link",
   "performance"]

/-- Final column order produced for the pause-enabled servers GS SGV2 and
GS AUS: the pause-inserted order followed by the job_id and vendor columns
appended by addTwoNullCols. -/
def pause_servers_order : List String :=
  pause_inserted_order ++ ["job_id", "vendor"]

/-- Cell values that can come out of a numeric coercion: floating-point
numbers or a propagated missing value.  Neither carries a
thousands-separator comma. -/
def numericOrNa (cl : Cell) : Prop :=
  (∃ q, cl = Cell.float q) ∨ cl = Cell.na

/-- Every cell of a row at the given column label is a float (or missing). -/
def NumAt (c : String) (r : List Entry) : Prop :=
  ∀ cl, rlookup r c = some cl → numericOrNa cl

/-- A six-column table exercising the metric numeric-cleanup loop in
isolation: object dtypes throughout, one comma value, both literal edge
strings, a plain decimal, a missing value and an integer cell. -/
def wCleanTable : Table :=
  { cols := [("Work efficiency (㎡/h)", Dtype.object),
             ("Actual cleaning area(㎡)", Dtype.object),
             ("Cleaning plan area (㎡)", Dtype.object),
             ("Brush (%)", Dtype.object),
             ("Filter (%)", Dtype.object),
             ("Squeegee(%)", Dtype.object)],
    rows := [[("Work efficiency (㎡/h)", Cell.str "1,000.00"),
              ("Actual cleaning area(㎡)", Cell.str "0.00"),
              ("Cleaning plan area (㎡)", Cell.str "100.00"),
              ("Brush (%)", Cell.str "12.50"),
              ("Filter (%)", Cell.na),
              ("Squeegee(%)", Cell.int 3)]] }

/-! Concrete tables used to evaluate the pipelines on closed inputs. -/

/-- Column layout of a small metric export: the six administrative columns,
the serial number, the report time, and the six numeric-cleanup columns
(the three percentage columns read as integers). -/
def wMetricCols : List (String × Dtype) :=
  [("Total time", Dtype.object), ("Task status", Dtype.object),
   ("Plan running time (s)", Dtype.int64), ("Uncleaned area (㎡)", Dtype.object),
   ("Task start mode", Dtype.object), ("Remarks", Dtype.object),
   ("S/N", Dtype.object), ("Receive task report time", Dtype.object),
   ("Work efficiency (㎡/h)", Dtype.object), ("Actual cleaning area(㎡)", Dtype.object),
   ("Cleaning plan area (㎡)", Dtype.object), ("Brush (%)", Dtype.int64),
   ("Filter (%)", Dtype.int64), ("Squeegee(%)", Dtype.int64)]

/-- One metric row with the given serial number and report time. -/
def wMetricRow (sn tm : String) : List Entry :=
  [("Total time", Cell.str "x"), ("Task status", Cell.str "done"),
   ("Plan running time (s)", Cell.int 5), ("Uncleaned area (㎡)", Cell.str "y"),
   ("Task start mode", Cell.str "m"), ("Remarks", Cell.str "r"),
   ("S/N", Cell.str sn), ("Receive task report time", Cell.str tm),
   ("Work efficiency (㎡/h)", Cell.str "1,234.5"), ("Actual cleaning area(㎡)", Cell.str "10.00"),
   ("Cleaning plan area (㎡)", Cell.str "0.00"), ("Brush (%)", Cell.int 100),
   ("Filter (%)", Cell.int 95), ("Squeegee(%)", Cell.int 90)]

/-- Two-row metric table: one row after the cutoff used below, one before. -/
def wMetricTable : Table :=
  { cols := wMetricCols,
    rows := [wMetricRow "A1" "2024-01-02 03:04:05", wMetricRow "B2" "2023-12-31 00:00:00"] }

/-- Metric upload. -/
def wMetricFile : PyFile := { name := "export.csv", parsed := Except.ok wMetricTable }

/-- Metric table whose single row has a missing serial number. -/
def wNaSNTable : Table :=
  { cols := wMetricCols,
    rows := [(wMetricRow "A1" "2024-01-02 03:04:05").map
      (fun p => if p.1 == "S/N" then (p.1, Cell.na) else p)] }

/-- Upload of the missing-serial-number table. -/
def wNaSNFile : PyFile := { name := "export.csv", parsed := Except.ok wNaSNTable }

/-- Caller-supplied adjusted timestamp for the closed runs. -/
def wAdj : DateTime := ⟨2024, 1, 5, 0, 0, 0⟩

/-- Cutoff string for the closed runs. -/
def wCutoffStr : String := "2024-01-01 00:00:00"

/-- Column layout of a small imperial (GS CA) export carrying every
expected column plus the dropped administrative ones. -/
def wCaCols : List (String × Dtype) :=
  [("Total time", Dtype.object), ("Task status", Dtype.object),
   ("Plan running time (s)", Dtype.int64), ("Uncleaned area (ft²)", Dtype.object),
   ("Task start mode", Dtype.object), ("Remarks", Dtype.object),
   ("Robot name", Dtype.object), ("S/N", Dtype.object), ("Map name", Dtype.object),
   ("Cleaning plan", Dtype.object), ("User", Dtype.object),
   ("Task start time", Dtype.object), ("End time", Dtype.object),
   ("Task completion (%)", Dtype.object), ("Actual cleaning area(ft²)", Dtype.int64),
   ("Total time (h)", Dtype.object), ("Water usage (gal)", Dtype.int64),
   ("Brush (%)", Dtype.object), ("Filter (%)", Dtype.object), ("Squeegee(%)", Dtype.object),
   ("Planned crystallization area (ft²)", Dtype.object),
   ("Actual crystallization area (ft²)", Dtype.object),
   ("Cleaning plan area (ft²)", Dtype.object), ("Start battery level (%)", Dtype.object),
   ("End battery level (%)", Dtype.object), ("Receive task report time", Dtype.object),
   ("Task type", Dtype.object), ("Download link", Dtype.object),
   ("Work efficiency (ft²/h)", Dtype.object)]

/-- One imperial row: serial number, report time, a brush-percentage string,
and integer water (gallons) and actual-area (square feet) readings. -/
def wCaRow (sn tm brush : String) (water area : Int) : List Entry :=
  [("Total time", Cell.str "x"), ("Task status", Cell.str "done"),
   ("Plan running time (s)", Cell.int 5), ("Uncleaned area (ft²)", Cell.str "y"),
   ("Task start mode", Cell.str "m"), ("Remarks", Cell.str "r"),
   ("Robot name", Cell.str "R2"), ("S/N", Cell.str sn), ("Map name", Cell.str "M"),
   ("Cleaning plan", Cell.str "P"), ("User", Cell.str "U"),
   ("Task start time", Cell.str "t0"), ("End time", Cell.str "t1"),
   ("Task completion (%)", Cell.str "88.00"), ("Actual cleaning area(ft²)", Cell.int area),
   ("Total time (h)", Cell.str "1.5"), ("Water usage (gal)", Cell.int water),
   ("Brush (%)", Cell.str brush), ("Filter (%)", Cell.str "0.0"),
   ("Squeegee(%)", Cell.str "100.00"),
   ("Planned crystallization area (ft²)", Cell.str "zz"),
   ("Actual crystallization area (ft²)", Cell.str "ww"),
   ("Cleaning plan area (ft²)", Cell.str "1,000.5"),
   ("Start battery level (%)", Cell.str "90"), ("End battery level (%)", Cell.str "80"),
   ("Receive task report time", Cell.str tm), ("Task type", Cell.str "auto"),
   ("Download link", Cell.str "http"), ("Work efficiency (ft²/h)", Cell.str "200")]

/-- One-row imperial table with 10 gallons of water and 100 square feet of
actual cleaning area. -/
def wCaTable : Table :=
  { cols := wCaCols, rows := [wCaRow "C1" "2024-01-02 03:04:05" "55.5" 10 100] }

/-- Imperial upload. -/
def wCaFile : PyFile := { name := "export.xlsx", parsed := Except.ok wCaTable }

/-- Imperial table lacking the expected column "Task type" (zero rows: the
selection failure depends on the columns only). -/
def wCaMissingTable : Table :=
  { cols := wCaCols.filter (fun p => !(p.1 == "Task type")), rows := [] }

/-- Upload of the imperial table with a missing expected column. -/
def wCaMissingFile : PyFile := { name := "export.xlsx", parsed := Except.ok wCaMissingTable }

/-- Imperial table whose brush-percentage cell carries a thousands
separator. -/
def wCaCommaTable : Table :=
  { cols := wCaCols, rows := [wCaRow "C1" "2024-01-02 03:04:05" "1,000.00" 10 100] }

/-- Upload of the comma-brush imperial table. -/
def wCaCommaFile : PyFile := { name := "export.xlsx", parsed := Except.ok wCaCommaTable }

/-- Upload whose name has an unsupported extension. -/
def wTxtFile : PyFile := { name := "data.txt", parsed := Except.ok wMetricTable }

/-- Upload whose byte stream fails to parse. -/
def wBadParseFile : PyFile := { name := "data.csv", parsed := Except.error "bad bytes" }

/-- Two rows with the same report timestamp and different robot names. -/
def wTieRow (robot : String) : List Entry :=
  [("Receive task report time", Cell.time ⟨2024, 1, 2, 3, 4, 5⟩), ("Robot name", Cell.str robot)]

/-! Basic lemmas about the embedding monad and row lookups. -/

theorem except_bind_ok {α β : Type} {x : Except PError α} {f : α → Except PError β} {b : β} :
    (x >>= f) = Except.ok b ↔ ∃ a, x = Except.ok a ∧ f a = Except.ok b := by
  cases x <;> simp [Bind.bind, Except.bind]

theorem except_pure_ok {α : Type} {a b : α} :
    (pure a : Except PError α) = Except.ok b ↔ a = b := by
  simp [pure, Except.pure]

theorem parseCutoff_ok {s : String} {c : DateTime} :
    parseCutoff s = Except.ok c ↔ strptime s = some c := by
  unfold parseCutoff
  cases strptime s <;> simp

theorem rlookup_nil (n : String) : rlookup [] n = none := rfl

theorem rlookup_cons (p : Entry) (r : List Entry) (n : String) :
    rlookup (p :: r) n = if p.1 == n then some p.2 else rlookup r n := by
  by_cases h : p.1 == n
  · simp [rlookup, List.find?_cons_of_pos, h]
  · simp only [Bool.not_eq_true] at h
    simp [rlookup, List.find?_cons_of_neg, h]

theorem rlookup_map_names (g : String → Cell → Cell) (r : List Entry) (n : String) :
    rlookup (r.map (fun p => (p.1, g p.1 p.2))) n = (rlookup r n).map (g n) := by
  induction r with
  | nil => rfl
  | cons p r ih =>
    by_cases h : p.1 = n
    · subst h
      simp [List.map_cons, rlookup_cons]
    · have hb : (p.1 == n) = false := by simp [h]
      simp [List.map_cons, rlookup_cons, hb, ih]

theorem rlookup_append (r l : List Entry) (n : String) :
    rlookup (r ++ l) n = (rlookup r n).or (rlookup l n) := by
  unfold rlookup
  rw [List.find?_append]
  cases r.find? (fun p => p.1 == n) <;> simp

theorem rlookup_eq_none_of_not_mem {r : List Entry} {n : String}
    (h : n ∉ rowNames r) : rlookup r n = none := by
  unfold rlookup
  rw [List.find?_eq_none.mpr]
  · rfl
  · intro p hp
    simp only [beq_iff_eq]
    intro hpn
    exact h (by simpa [rowNames, hpn] using List.mem_map_of_mem (fun q => q.1) hp)

theorem rowNames_map_names (g : String → Cell → Cell) (r : List Entry) :
    rowNames (r.map (fun p => (p.1, g p.1 p.2))) = rowNames r := by
  simp [rowNames, List.map_map]

/-! Lemmas about the monadic per-column and per-row updates. -/

theorem mapEntryM_ok_names {n : String} {f : Cell → Except PError Cell} :
    ∀ {r r2 : List Entry}, mapEntryM n f r = Except.ok r2 → rowNames r2 = rowNames r := by
  intro r
  induction r with
  | nil =>
    intro r2 h
    simp [mapEntryM] at h
    subst h
    rfl
  | cons p ps ih =>
    intro r2 h
    by_cases hp : p.1 == n
    · simp only [mapEntryM, hp, if_pos] at h
      rw [except_bind_ok] at h
      obtain ⟨c, hc, h⟩ := h
      rw [except_bind_ok] at h
      obtain ⟨rest, hrest, h⟩ := h
      rw [except_pure_ok] at h
      subst h
      simp only [rowNames, List.map_cons]
      exact congrArg (fun l => p.1 :: l) (by simpa [rowNames] using ih hrest)
    · simp only [mapEntryM, hp, if_neg, Bool.false_eq_true, not_false_iff] at h
      rw [except_bind_ok] at h
      obtain ⟨rest, hrest, h⟩ := h
      rw [except_pure_ok] at h
      subst h
      simp only [rowNames, List.map_cons]
      exact congrArg (fun l => p.1 :: l) (by simpa [rowNames] using ih hrest)

theorem mapEntryM_rlookup_ne {n m : String} {f : Cell → Except PError Cell} (hm : m ≠ n) :
    ∀ {r r2 : List Entry}, mapEntryM n f r = Except.ok r2 → rlookup r2 m = rlookup r m := by
  intro r
  induction r with
  | nil =>
    intro r2 h
    simp [mapEntryM] at h
    subst h
    rfl
  | cons p ps ih =>
    intro r2 h
    by_cases hp : p.1 == n
    · simp only [mapEntryM, hp, if_pos] at h
      rw [except_bind_ok] at h
      obtain ⟨c, hc, h⟩ := h
      rw [except_bind_ok] at h
      obtain ⟨rest, hrest, h⟩ := h
      rw [except_pure_ok] at h
      subst h
      have hp1 : p.1 = n := beq_iff_eq.mp hp
      have hpm : (p.1 == m) = false := by
        rw [hp1]
        exact beq_eq_false_iff_ne.mpr (fun h2 => hm h2.symm)
      simp [rlookup_cons, hpm, ih hrest]
    · simp only [mapEntryM, hp, if_neg, Bool.false_eq_true, not_false_iff] at h
      rw [except_bind_ok] at h
      obtain ⟨rest, hrest, h⟩ := h
      rw [except_pure_ok] at h
      subst h
      by_cases hpm : p.1 == m
      · simp [rlookup_cons, hpm]
      · simp only [Bool.not_eq_true] at hpm
        simp [rlookup_cons, hpm, ih hrest]

theorem mapEntryM_rlookup_eq {n : String} {f : Cell → Except PError Cell} :
    ∀ {r r2 : List Entry} {c2 : Cell}, mapEntryM n f r = Except.ok r2 →
      rlookup r2 n = some c2 → ∃ c, rlookup r n = some c ∧ f c = Except.ok c2 := by
  intro r
  induction r with
  | nil =>
    intro r2 c2 h h2
    simp [mapEntryM] at h
    subst h
    simp [rlookup_nil] at h2
  | cons p ps ih =>
    intro r2 c2 h h2
    by_cases hp : p.1 == n
    · simp only [mapEntryM, hp, if_pos] at h
      rw [except_bind_ok] at h
      obtain ⟨c, hc, h⟩ := h
      rw [except_bind_ok] at h
      obtain ⟨rest, hrest, h⟩ := h
      rw [except_pure_ok] at h
      subst h
      rw [rlookup_cons] at h2
      simp only [hp, if_pos] at h2
      rw [rlookup_cons]
      simp only [hp, if_pos]
      exact ⟨p.2, rfl, by rw [hc]; exact congrArg Except.ok (by injection h2)⟩
    · simp only [mapEntryM, hp, if_neg, Bool.false_eq_true, not_false_iff] at h
      rw [except_bind_ok] at h
      obtain ⟨rest, hrest, h⟩ := h
      rw [except_pure_ok] at h
      subst h
      rw [rlookup_cons] at h2
      simp only [hp, Bool.false_eq_true, if_neg, not_false_iff] at h2
      rw [rlookup_cons]
      simp only [hp, Bool.false_eq_true, if_neg, not_false_iff]
      exact ih hrest h2

theorem rowsMapM_ok_forall {F : List Entry → Except PError (List Entry)} :
    ∀ {rows rows2 : List (List Entry)}, rowsMapM F rows = Except.ok rows2 →
      List.Forall₂ (fun r r2 => F r = Except.ok r2) rows rows2 := by
  intro rows
  induction rows with
  | nil =>
    intro rows2 h
    simp [rowsMapM] at h
    subst h
    exact List.Forall₂.nil
  | cons r rs ih =>
    intro rows2 h
    simp only [rowsMapM] at h
    rw [except_bind_ok] at h
    obtain ⟨r2, hr2, h⟩ := h
    rw [except_bind_ok] at h
    obtain ⟨rs2, hrs2, h⟩ := h
    rw [except_pure_ok] at h
    subst h
    exact List.Forall₂.cons hr2 (ih hrs2)

theorem forall2_mem_right {α β : Type} {R : α → β → Prop} :
    ∀ {l : List α} {l2 : List β}, List.Forall₂ R l l2 → ∀ {b : β}, b ∈ l2 →
      ∃ a, a ∈ l ∧ R a b := by
  intro l l2 h
  induction h with
  | nil => intro b hb; simp at hb
  | cons hR _ ih =>
    intro b hb
    rcases List.mem_cons.mp hb with hb | hb
    · subst hb
      exact ⟨_, List.mem_cons_self _ _, hR⟩
    · obtain ⟨a, ha, hab⟩ := ih hb
      exact ⟨a, List.mem_cons_of_mem _ ha, hab⟩

theorem forall2_map_eq {α β : Type} {γ : Type} {R : α → β → Prop} (k : α → γ) (k2 : β → γ) :
    ∀ {l : List α} {l2 : List β}, List.Forall₂ R l l2 → (∀ a b, R a b → k2 b = k a) →
      l2.map k2 = l.map k := by
  intro l l2 h
  induction h with
  | nil => intro; rfl
  | cons hR _ ih =>
    intro hk
    simp [List.map_cons, hk _ _ hR, ih hk]

/-! Lemmas about the deterministic descending sort. -/

theorem insertDesc_perm (key : List Entry → Nat) (r : List Entry) :
    ∀ l : List (List Entry), (insertDesc key r l).Perm (r :: l) := by
  intro l
  induction l with
  | nil => exact List.Perm.refl _
  | cons x xs ih =>
    unfold insertDesc
    by_cases h : key x ≤ key r
    · rw [if_pos h]
    · rw [if_neg h]
      exact (ih.cons x).trans (List.Perm.swap r x xs)

theorem insertionSortDesc_perm (key : List Entry → Nat) :
    ∀ l : List (List Entry), (insertionSortDesc key l).Perm l := by
  intro l
  induction l with
  | nil => exact List.Perm.refl _
  | cons r rs ih =>
    exact (insertDesc_perm key r _).trans (ih.cons r)

theorem pairwise_insertDesc (key : List Entry → Nat) (r : List Entry) :
    ∀ l : List (List Entry), l.Pairwise (fun a b => key b ≤ key a) →
      (insertDesc key r l).Pairwise (fun a b => key b ≤ key a) := by
  intro l
  induction l with
  | nil =>
    intro _
    exact List.pairwise_singleton _ _
  | cons x xs ih =>
    intro h
    unfold insertDesc
    by_cases hx : key x ≤ key r
    · rw [if_pos hx]
      refine List.Pairwise.cons ?_ h
      intro y hy
      rcases List.mem_cons.mp hy with rfl | hy2
      · exact hx
      · exact le_trans (List.rel_of_pairwise_cons h hy2) hx
    · rw [if_neg hx]
      refine List.Pairwise.cons ?_ (ih (List.Pairwise.sublist (List.sublist_cons_self x xs) h))
      intro y hy
      have hy2 := (insertDesc_perm key r xs).mem_iff.mp hy
      rcases List.mem_cons.mp hy2 with rfl | hy3
      · exact le_of_lt (lt_of_not_le hx)
      · exact List.rel_of_pairwise_cons h hy3

theorem pairwise_insertionSortDesc (key : List Entry → Nat) :
    ∀ l : List (List Entry),
      (insertionSortDesc key l).Pairwise (fun a b => key b ≤ key a) := by
  intro l
  induction l with
  | nil => exact List.Pairwise.nil
  | cons r rs ih => exact pairwise_insertDesc key r _ ih

theorem mem_sortDescBy {n : String} {t : Table} {r : List Entry} :
    r ∈ (sortDescBy n t).rows ↔ r ∈ t.rows := by
  simp only [sortDescBy]
  exact (insertionSortDesc_perm (rowKey n) t.rows).mem_iff

theorem cols_sortDescBy (n : String) (t : Table) : (sortDescBy n t).cols = t.cols := rfl

theorem pairwise_sortDescBy (n : String) (t : Table) :
    (sortDescBy n t).rows.Pairwise (fun a b => rowKey n b ≤ rowKey n a) :=
  pairwise_insertionSortDesc (rowKey n) t.rows

/-! Generic preservation through a fallible fold over column names. -/

theorem foldlM_rel {σ ι : Type} {R : σ → σ → Prop} (hrefl : ∀ s, R s s)
    (htrans : ∀ a b c, R a b → R b c → R a c) (step : σ → ι → Except PError σ) :
    ∀ (names : List ι) (t t2 : σ),
      (∀ s n s2, n ∈ names → step s n = Except.ok s2 → R s s2) →
      List.foldlM step t names = Except.ok t2 → R t t2 := by
  intro names
  induction names with
  | nil =>
    intro t t2 _ h
    simp only [List.foldlM] at h
    rw [except_pure_ok] at h
    subst h
    exact hrefl t
  | cons n ns ih =>
    intro t t2 hstep h
    simp only [List.foldlM_cons] at h
    rw [except_bind_ok] at h
    obtain ⟨s1, hs1, h⟩ := h
    exact htrans _ _ _ (hstep t n s1 (List.mem_cons_self _ _) hs1)
      (ih s1 t2 (fun s m s2 hm => hstep s m s2 (List.mem_cons_of_mem _ hm)) h)

/-! Spec lemmas for the individual table operations. -/

theorem table_eta (t : Table) (rs : List (List Entry)) (h : rs = t.rows) :
    ({ t with rows := rs } : Table) = t := by
  cases t
  subst h
  rfl

theorem rlookup_filter_names {names : List String} {m : String}
    (hm : names.contains m = false) (r : List Entry) :
    rlookup (r.filter (fun p => !(names.contains p.1))) m = rlookup r m := by
  induction r with
  | nil => rfl
  | cons p ps ih =>
    cases hk : names.contains p.1 with
    | true =>
      have hdrop : (p :: ps).filter (fun q => !(names.contains q.1)) =
          ps.filter (fun q => !(names.contains q.1)) := by
        simp only [List.filter_cons, hk, Bool.not_true]
        rfl
      have hp : (p.1 == m) = false := by
        apply beq_eq_false_iff_ne.mpr
        intro he
        rw [he, hm] at hk
        exact Bool.false_ne_true hk
      rw [hdrop, ih, rlookup_cons, hp]
      simp only [Bool.false_eq_true, if_false]
    | false =>
      have hkeep : (p :: ps).filter (fun q => !(names.contains q.1)) =
          p :: ps.filter (fun q => !(names.contains q.1)) := by
        simp only [List.filter_cons, hk, Bool.not_false]
        rfl
      rw [hkeep, rlookup_cons, rlookup_cons, ih]

theorem colNames_filter_names (t : Table) (names : List String) :
    (t.cols.filter (fun p => !(names.contains p.1))).map (fun p => p.1) =
      (colNames t).filter (fun m => !(names.contains m)) := by
  show _ = (t.cols.map (fun p => p.1)).filter (fun m => !(names.contains m))
  induction t.cols with
  | nil => rfl
  | cons p ps ih =>
    cases hk : names.contains p.1 with
    | true =>
      have hL : (p :: ps).filter (fun q => !(names.contains q.1)) =
          ps.filter (fun q => !(names.contains q.1)) := by
        simp only [List.filter_cons, hk, Bool.not_true]
        rfl
      have hR : (p.1 :: ps.map (fun q => q.1)).filter (fun m => !(names.contains m)) =
          (ps.map (fun q => q.1)).filter (fun m => !(names.contains m)) := by
        simp only [List.filter_cons, hk, Bool.not_true]
        rfl
      rw [hL, List.map_cons, hR, ih]
    | false =>
      have hL : (p :: ps).filter (fun q => !(names.contains q.1)) =
          p :: ps.filter (fun q => !(names.contains q.1)) := by
        simp only [List.filter_cons, hk, Bool.not_false]
        rfl
      have hR : (p.1 :: ps.map (fun q => q.1)).filter (fun m => !(names.contains m)) =
          p.1 :: (ps.map (fun q => q.1)).filter (fun m => !(names.contains m)) := by
        simp only [List.filter_cons, hk, Bool.not_false]
        rfl
      rw [hL, List.map_cons, List.map_cons, hR, ih]

theorem snFilter_ok {t t2 : Table} {ex : List String} (h : snFilter t ex = Except.ok t2) :
    hasCol t "S/N" = true ∧ t2.cols = t.cols ∧
      t2.rows = t.rows.filter (fun r => !(snMask r ex)) := by
  unfold snFilter at h
  by_cases hc : hasCol t "S/N"
  · rw [if_pos hc] at h
    injection h with h
    subst h
    exact ⟨hc, rfl, rfl⟩
  · rw [if_neg hc] at h
    exact absurd h (by simp)

theorem snFilterOpt_ok_cases {t t2 : Table} {ex : List String}
    (h : snFilterOpt t ex = Except.ok t2) :
    (ex = [] ∧ t2 = t) ∨ (ex ≠ [] ∧ snFilter t ex = Except.ok t2) := by
  unfold snFilterOpt at h
  by_cases hex : ex = []
  · rw [if_neg (by simpa using hex)] at h
    injection h with h
    exact Or.inl ⟨hex, h.symm⟩
  · rw [if_pos (by simpa using hex)] at h
    exact Or.inr ⟨hex, h⟩

theorem snFilterOpt_ok_cols {t t2 : Table} {ex : List String}
    (h : snFilterOpt t ex = Except.ok t2) : t2.cols = t.cols := by
  rcases snFilterOpt_ok_cases h with ⟨_, h2⟩ | ⟨_, h2⟩
  · subst h2; rfl
  · exact (snFilter_ok h2).2.1

theorem snFilterOpt_ok_sub {t t2 : Table} {ex : List String}
    (h : snFilterOpt t ex = Except.ok t2) : ∀ r ∈ t2.rows, r ∈ t.rows := by
  rcases snFilterOpt_ok_cases h with ⟨_, h2⟩ | ⟨_, h2⟩
  · subst h2; exact fun r hr => hr
  · intro r hr
    rw [(snFilter_ok h2).2.2] at hr
    exact (List.mem_filter.mp hr).1

theorem snFilterOpt_ok_mask {t t2 : Table} {ex : List String} (hex : ex ≠ [])
    (h : snFilterOpt t ex = Except.ok t2) :
    ∀ r ∈ t2.rows, snMask r ex = false := by
  rcases snFilterOpt_ok_cases h with ⟨hex2, _⟩ | ⟨_, h2⟩
  · exact absurd hex2 hex
  · intro r hr
    rw [(snFilter_ok h2).2.2] at hr
    have := (List.mem_filter.mp hr).2
    simpa using this

theorem dropColumnsF_ok {t t2 : Table} {names : List String}
    (h : dropColumnsF t names = Except.ok t2) :
    names.all (fun n => hasCol t n) = true ∧
      t2.cols = t.cols.filter (fun p => !(names.contains p.1)) ∧
      t2.rows = t.rows.map (fun r => r.filter (fun p => !(names.contains p.1))) := by
  unfold dropColumnsF at h
  by_cases hc : names.all (fun n => hasCol t n)
  · rw [if_pos hc] at h
    injection h with h
    subst h
    exact ⟨hc, rfl, rfl⟩
  · rw [if_neg hc] at h
    exact absurd h (by simp)

theorem insertIdCol_ok {t t2 : Table} (h : insertIdCol t = Except.ok t2) :
    hasCol t "Id" = false ∧ t2.cols = ("Id", Dtype.float64) :: t.cols ∧
      t2.rows = t.rows.map (fun r => ("Id", Cell.na) :: r) := by
  unfold insertIdCol at h
  by_cases hc : hasCol t "Id"
  · rw [if_pos hc] at h
    exact absurd h (by simp)
  · rw [if_neg hc] at h
    injection h with h
    subst h
    exact ⟨by simpa using hc, rfl, rfl⟩

theorem toDatetimeColF_ok {t t2 : Table} {n : String}
    (h : toDatetimeColF t n = Except.ok t2) :
    hasCol t n = true ∧ colNames t2 = colNames t ∧
      List.Forall₂ (fun r r2 => mapEntryM n toDatetimeCell r = Except.ok r2) t.rows t2.rows := by
  unfold toDatetimeColF at h
  by_cases hc : hasCol t n
  · rw [if_pos hc] at h
    rw [except_bind_ok] at h
    obtain ⟨rows2, hrows, h⟩ := h
    rw [except_pure_ok] at h
    subst h
    refine ⟨hc, ?_, rowsMapM_ok_forall hrows⟩
    simp [colNames, List.map_map]
  · rw [if_neg hc] at h
    exact absurd h (by simp)

theorem timeFilterF_mem {t : Table} {n : String} {cutoff : DateTime} {r : List Entry}
    (h : r ∈ (timeFilterF t n cutoff).rows) :
    r ∈ t.rows ∧ timeAfter cutoff ((rlookup r n).getD Cell.na) = true := by
  simp only [timeFilterF] at h
  exact ⟨(List.mem_filter.mp h).1, (List.mem_filter.mp h).2⟩

theorem timeFilterF_cols (t : Table) (n : String) (cutoff : DateTime) :
    (timeFilterF t n cutoff).cols = t.cols := rfl

theorem selectColsF_ok {t t2 : Table} {order : List String}
    (h : selectColsF t order = Except.ok t2) :
    order.all (fun n => hasCol t n) = true ∧
      t2.cols = order.map (fun n => (n, dtypeOf t n)) ∧
      t2.rows = t.rows.map (fun r => order.map (fun n => (n, (rlookup r n).getD Cell.na))) := by
  unfold selectColsF at h
  by_cases hc : order.all (fun n => hasCol t n)
  · rw [if_pos hc] at h
    injection h with h
    subst h
    exact ⟨hc, rfl, rfl⟩
  · rw [if_neg hc] at h
    exact absurd h (by simp)

theorem selectColsF_err {t : Table} {order : List String} {c : String}
    (hc : c ∈ order) (hmiss : hasCol t c = false) :
    selectColsF t order = Except.error (PError.keyError "columns not in index") := by
  unfold selectColsF
  rw [if_neg]
  intro hall
  have := List.all_eq_true.mp hall c hc
  rw [hmiss] at this
  exact Bool.false_ne_true this

theorem rlookup_selRow (r : List Entry) :
    ∀ (order : List String) (m : String), m ∈ order →
      rlookup (order.map (fun n => (n, (rlookup r n).getD Cell.na))) m =
        some ((rlookup r m).getD Cell.na) := by
  intro order
  induction order with
  | nil => intro m hm; simp at hm
  | cons n0 ns ih =>
    intro m hm
    by_cases h0 : n0 == m
    · have h1 : n0 = m := beq_iff_eq.mp h0
      subst h1
      simp [List.map_cons, rlookup_cons]
    · simp only [Bool.not_eq_true] at h0
      have hm2 : m ∈ ns := by
        rcases List.mem_cons.mp hm with hm2 | hm2
        · exact absurd (beq_iff_eq.mpr hm2.symm) (by simp [h0])
        · exact hm2
      rw [List.map_cons, rlookup_cons]
      simp only [h0, Bool.false_eq_true, if_false]
      exact ih m hm2

theorem rowNames_selRow (order : List String) (f : String → Cell) :
    rowNames (order.map (fun n => (n, f n))) = order := by
  induction order with
  | nil => rfl
  | cons n ns ih =>
    show (n, f n).1 :: rowNames (ns.map (fun x => (x, f x))) = n :: ns
    rw [ih]

theorem setColsF_ok {t t2 : Table} {names : List String} {c : Cell}
    (h : setColsF t names c = Except.ok t2) :
    names.all (fun n => hasCol t n) = true ∧
      t2.cols = t.cols.map (fun p => (p.1, if names.contains p.1 then Dtype.object else p.2)) ∧
      t2.rows = t.rows.map (fun r =>
        r.map (fun p => (p.1, if names.contains p.1 then c else p.2))) := by
  unfold setColsF at h
  by_cases hc : names.all (fun n => hasCol t n)
  · rw [if_pos hc] at h
    injection h with h
    subst h
    exact ⟨hc, rfl, rfl⟩
  · rw [if_neg hc] at h
    exact absurd h (by simp)

/-! Row-level lemmas for the cellwise table maps. -/

theorem rlookup_replaceRow (r : List Entry) (m : String) :
    rlookup (r.map (fun p => (p.1, replaceDashCell p.2))) m =
      (rlookup r m).map replaceDashCell :=
  rlookup_map_names (fun _ c => replaceDashCell c) r m

theorem rlookup_fillRow (r : List Entry) (m : String) :
    rlookup (r.map (fun p => (p.1, fillNullCell p.2))) m =
      (rlookup r m).map fillNullCell :=
  rlookup_map_names (fun _ c => fillNullCell c) r m

theorem rlookup_setRow (names : List String) (c : Cell) (r : List Entry) (m : String) :
    rlookup (r.map (fun p => (p.1, if names.contains p.1 then c else p.2))) m =
      (rlookup r m).map (fun c0 => if names.contains m then c else c0) :=
  rlookup_map_names (fun n0 c0 => if names.contains n0 then c else c0) r m

theorem rowNames_replaceRow (r : List Entry) :
    rowNames (r.map (fun p => (p.1, replaceDashCell p.2))) = rowNames r :=
  rowNames_map_names (fun _ c => replaceDashCell c) r

theorem rowNames_fillRow (r : List Entry) :
    rowNames (r.map (fun p => (p.1, fillNullCell p.2))) = rowNames r :=
  rowNames_map_names (fun _ c => fillNullCell c) r

theorem rowNames_setRow (names : List String) (c : Cell) (r : List Entry) :
    rowNames (r.map (fun p => (p.1, if names.contains p.1 then c else p.2))) = rowNames r :=
  rowNames_map_names (fun n0 c0 => if names.contains n0 then c else c0) r

theorem rowKey_eq_cellKey (m : String) (r : List Entry) :
    rowKey m r = cellKey ((rlookup r m).getD Cell.na) := by
  unfold rowKey cellKey
  cases rlookup r m with
  | none => rfl
  | some c => cases c <;> rfl

theorem cellKey_replaceDash (c : Cell) : cellKey (replaceDashCell c) = cellKey c := by
  unfold replaceDashCell
  by_cases h : c = Cell.str "-"
  · rw [if_pos h, h]
    rfl
  · rw [if_neg h]

theorem cellKey_fillNull (c : Cell) : cellKey (fillNullCell c) = cellKey c := by
  unfold fillNullCell
  by_cases h : c = Cell.na
  · rw [if_pos h, h]
    rfl
  · rw [if_neg h]

theorem rowKey_replaceRow (r : List Entry) (m : String) :
    rowKey m (r.map (fun p => (p.1, replaceDashCell p.2))) = rowKey m r := by
  rw [rowKey_eq_cellKey, rowKey_eq_cellKey, rlookup_replaceRow]
  cases h : rlookup r m with
  | none => rfl
  | some c => exact cellKey_replaceDash c

theorem rowKey_fillRow (r : List Entry) (m : String) :
    rowKey m (r.map (fun p => (p.1, fillNullCell p.2))) = rowKey m r := by
  rw [rowKey_eq_cellKey, rowKey_eq_cellKey, rlookup_fillRow]
  cases h : rlookup r m with
  | none => rfl
  | some c => exact cellKey_fillNull c

theorem rowKey_setRow (names : List String) (c : Cell) (r : List Entry) (m : String)
    (hm : names.contains m = false) :
    rowKey m (r.map (fun p => (p.1, if names.contains p.1 then c else p.2))) = rowKey m r := by
  unfold rowKey
  rw [rlookup_setRow, hm]
  cases h : rlookup r m with
  | none => rfl
  | some c0 => rfl

/-! Lemmas about column synthesis (metric variant only). -/

theorem colNames_appendCol (t : Table) (n : String) (c : Cell) :
    colNames (appendCol t n c) = colNames t ++ [n] := by
  simp [colNames, appendCol]

theorem string_beq_eq_decide (m n : String) : (m == n) = decide (m = n) := by
  by_cases h : m = n
  · subst h
    simp
  · rw [beq_eq_false_iff_ne.mpr h, decide_eq_false h]

theorem contains_append_singleton (l : List String) (n m : String) :
    (l ++ [n]).contains m = (l.contains m || (m == n)) := by
  induction l with
  | nil => simp [string_beq_eq_decide]
  | cons a as ih => simp [List.contains_cons, ih, Bool.or_assoc, string_beq_eq_decide]

theorem hasCol_appendCol (t : Table) (n : String) (c : Cell) (m : String) :
    hasCol (appendCol t n c) m = (hasCol t m || (m == n)) := by
  simp only [hasCol, colNames_appendCol]
  exact contains_append_singleton _ n m

theorem ensureCols_cons (t : Table) (n : String) (ns : List String) :
    ensureCols t (n :: ns) =
      ensureCols (if hasCol t n then t else appendCol t n (Cell.str "NULL")) ns := rfl

theorem ensureCols_rows :
    ∀ (order : List String) (t : Table), ∃ L : List Entry,
      (ensureCols t order).rows = t.rows.map (fun r => r ++ L) ∧
      (∀ p, p ∈ L → p.2 = Cell.str "NULL" ∧ hasCol t p.1 = false) ∧
      (∀ c, c ∈ order → hasCol t c = false → rlookup L c = some (Cell.str "NULL")) := by
  intro order
  induction order with
  | nil =>
    intro t
    refine ⟨[], ?_, ?_, ?_⟩
    · show t.rows = t.rows.map (fun r => r ++ [])
      simp
    · intro p hp
      simp at hp
    · intro c hc
      simp at hc
  | cons n ns ih =>
    intro t
    rw [ensureCols_cons]
    cases hn : hasCol t n with
    | true =>
      rw [if_pos rfl]
      obtain ⟨L, hrows, hent, hlook⟩ := ih t
      refine ⟨L, hrows, hent, ?_⟩
      intro c hc hmiss
      rcases List.mem_cons.mp hc with rfl | hc2
      · rw [hmiss] at hn
        exact absurd hn Bool.false_ne_true
      · exact hlook c hc2 hmiss
    | false =>
      rw [if_neg Bool.false_ne_true]
      obtain ⟨L1, hrows, hent, hlook⟩ := ih (appendCol t n (Cell.str "NULL"))
      refine ⟨(n, Cell.str "NULL") :: L1, ?_, ?_, ?_⟩
      · rw [hrows]
        show (t.rows.map (fun r => r ++ [(n, Cell.str "NULL")])).map (fun r => r ++ L1) =
          t.rows.map (fun r => r ++ ((n, Cell.str "NULL") :: L1))
        rw [List.map_map]
        apply List.map_congr_left
        intro r _
        show (r ++ [(n, Cell.str "NULL")]) ++ L1 = r ++ ((n, Cell.str "NULL") :: L1)
        rw [List.append_assoc]
        rfl
      · intro p hp
        rcases List.mem_cons.mp hp with rfl | hp2
        · exact ⟨rfl, hn⟩
        · obtain ⟨h2, h3⟩ := hent p hp2
          refine ⟨h2, ?_⟩
          rw [hasCol_appendCol] at h3
          exact (Bool.or_eq_false_iff.mp h3).1
      · intro c hc hmiss
        by_cases hcn : c = n
        · subst hcn
          rw [rlookup_cons]
          simp
        · rw [rlookup_cons]
          have hne : ((n, Cell.str "NULL").1 == c) = false :=
            beq_eq_false_iff_ne.mpr (fun h => hcn h.symm)
          rw [hne]
          simp only [Bool.false_eq_true, if_false]
          have hc2 : c ∈ ns := by
            rcases List.mem_cons.mp hc with rfl | h2
            · exact absurd rfl hcn
            · exact h2
          apply hlook c hc2
          rw [hasCol_appendCol]
          have : (c == n) = false := beq_eq_false_iff_ne.mpr hcn
          rw [hmiss, this]
          rfl

/-! Transport lemmas for the numeric-cleanup folds. -/

theorem forall2_rowsP {F : List Entry → Except PError (List Entry)}
    {rows rows2 : List (List Entry)} {P : List Entry → Prop}
    (h : List.Forall₂ (fun r r2 => F r = Except.ok r2) rows rows2)
    (hP : ∀ r r2, F r = Except.ok r2 → P r → P r2) :
    (∀ r ∈ rows, P r) → ∀ r2 ∈ rows2, P r2 := by
  intro hall r2 hr2
  obtain ⟨r, hr, hF⟩ := forall2_mem_right h hr2
  exact hP r r2 hF (hall r hr)

theorem applyColF_ok {t t2 : Table} {n : String} {f : Cell → Except PError Cell}
    (h : applyColF t n f = Except.ok t2) :
    hasCol t n = true ∧ colNames t2 = colNames t ∧
      List.Forall₂ (fun r r2 => mapEntryM n f r = Except.ok r2) t.rows t2.rows := by
  unfold applyColF at h
  by_cases hc : hasCol t n
  · rw [if_pos hc] at h
    rw [except_bind_ok] at h
    obtain ⟨rows2, hrows, h⟩ := h
    rw [except_pure_ok] at h
    subst h
    refine ⟨hc, ?_, rowsMapM_ok_forall hrows⟩
    simp [colNames, List.map_map]
  · rw [if_neg hc] at h
    exact absurd h (by simp)

theorem cleanupColMetricF_ok {t t2 : Table} {n : String}
    (h : cleanupColMetricF t n = Except.ok t2) :
    colNames t2 = colNames t ∧
      (t2 = t ∨ List.Forall₂ (fun r r2 => mapEntryM n cleanupCellMetric r = Except.ok r2)
        t.rows t2.rows) := by
  unfold cleanupColMetricF at h
  by_cases hc : hasCol t n
  · rw [if_pos hc] at h
    by_cases hd : (dtypeOf t n == Dtype.object || dtypeOf t n == Dtype.float64)
    · rw [if_pos hd] at h
      rw [except_bind_ok] at h
      obtain ⟨rows2, hrows, h⟩ := h
      rw [except_pure_ok] at h
      subst h
      refine ⟨?_, Or.inr (rowsMapM_ok_forall hrows)⟩
      simp [colNames, List.map_map]
    · rw [if_neg hd] at h
      rw [except_pure_ok] at h
      subst h
      exact ⟨rfl, Or.inl rfl⟩
  · rw [if_neg hc] at h
    exact absurd h (by simp)

theorem mapEntry_pres_lookupP {n m : String} {f : Cell → Except PError Cell} (hne : m ≠ n)
    {Q : Option Cell → Prop} :
    ∀ r r2, mapEntryM n f r = Except.ok r2 → Q (rlookup r m) → Q (rlookup r2 m) :=
  fun _ _ hF hQ => by rw [mapEntryM_rlookup_ne hne hF]; exact hQ

theorem mapEntry_rowKey_eq {n m : String} {f : Cell → Except PError Cell} (hne : m ≠ n)
    {r r2 : List Entry} (hF : mapEntryM n f r = Except.ok r2) :
    rowKey m r2 = rowKey m r := by
  rw [rowKey_eq_cellKey, rowKey_eq_cellKey, mapEntryM_rlookup_ne hne hF]

theorem contains_false_ne {names : List String} {m n : String}
    (hm : names.contains m = false) (hn : n ∈ names) : m ≠ n := by
  intro he
  subst he
  have : names.contains m = true := List.elem_iff.mpr hn
  rw [hm] at this
  exact Bool.false_ne_true this

theorem cleanupFold_colNames {names : List String} {t t2 : Table}
    (h : names.foldlM cleanupColMetricF t = Except.ok t2) : colNames t2 = colNames t :=
  foldlM_rel (R := fun a b => colNames b = colNames a) (fun _ => rfl)
    (fun _ _ _ hab hbc => hbc.trans hab) cleanupColMetricF names t t2
    (fun _ _ _ _ hs => (cleanupColMetricF_ok hs).1) h

theorem cleanupFold_rowsP {names : List String} {t t2 : Table} {P : List Entry → Prop}
    (hP : ∀ n ∈ names, ∀ r r2, mapEntryM n cleanupCellMetric r = Except.ok r2 → P r → P r2)
    (h : names.foldlM cleanupColMetricF t = Except.ok t2) :
    (∀ r ∈ t.rows, P r) → ∀ r2 ∈ t2.rows, P r2 :=
  foldlM_rel (R := fun a b => (∀ r ∈ a.rows, P r) → ∀ r2 ∈ b.rows, P r2)
    (fun _ h1 => h1) (fun _ _ _ hab hbc h1 => hbc (hab h1)) cleanupColMetricF names t t2
    (fun _ n _ hn hs => by
      rcases (cleanupColMetricF_ok hs).2 with heq | hf
      · subst heq; exact fun h1 => h1
      · exact fun h1 => forall2_rowsP hf (hP n hn) h1) h

theorem cleanupFold_keys {names : List String} {t t2 : Table} {m : String}
    (hm : names.contains m = false)
    (h : names.foldlM cleanupColMetricF t = Except.ok t2) :
    t2.rows.map (rowKey m) = t.rows.map (rowKey m) := by
  refine foldlM_rel (R := fun a b => b.rows.map (rowKey m) = a.rows.map (rowKey m))
    (fun _ => rfl) ?_ cleanupColMetricF names t t2 ?_ h
  · intro a b c hab hbc
    exact hbc.trans hab
  · intro s n s2 hn hs
    rcases (cleanupColMetricF_ok hs).2 with heq | hf
    · subst heq
      rfl
    · exact forall2_map_eq (rowKey m) (rowKey m) hf
        (fun a b hab => mapEntry_rowKey_eq (contains_false_ne hm hn) hab)

theorem applyColFold_colNames {names : List String} {f : Cell → Except PError Cell}
    {t t2 : Table}
    (h : names.foldlM (fun acc n => applyColF acc n f) t = Except.ok t2) :
    colNames t2 = colNames t := by
  refine foldlM_rel (R := fun a b => colNames b = colNames a) (fun _ => rfl) ?_
    (fun acc n => applyColF acc n f) names t t2 ?_ h
  · intro a b c hab hbc
    exact hbc.trans hab
  · intro s n s2 _ hs
    exact (applyColF_ok hs).2.1

theorem applyColFold_rowsP {names : List String} {f : Cell → Except PError Cell}
    {t t2 : Table} {P : List Entry → Prop}
    (hP : ∀ n ∈ names, ∀ r r2, mapEntryM n f r = Except.ok r2 → P r → P r2)
    (h : names.foldlM (fun acc n => applyColF acc n f) t = Except.ok t2) :
    (∀ r ∈ t.rows, P r) → ∀ r2 ∈ t2.rows, P r2 :=
  foldlM_rel (R := fun a b => (∀ r ∈ a.rows, P r) → ∀ r2 ∈ b.rows, P r2)
    (fun _ h1 => h1) (fun _ _ _ hab hbc h1 => hbc (hab h1)) (fun acc n => applyColF acc n f)
    names t t2
    (fun _ n _ hn hs => fun h1 => forall2_rowsP (applyColF_ok hs).2.2 (hP n hn) h1) h

theorem applyColFold_keys {names : List String} {f : Cell → Except PError Cell}
    {t t2 : Table} {m : String} (hm : names.contains m = false)
    (h : names.foldlM (fun acc n => applyColF acc n f) t = Except.ok t2) :
    t2.rows.map (rowKey m) = t.rows.map (rowKey m) := by
  refine foldlM_rel (R := fun a b => b.rows.map (rowKey m) = a.rows.map (rowKey m))
    (fun _ => rfl) ?_ (fun acc n => applyColF acc n f) names t t2 ?_ h
  · intro a b c hab hbc
    exact hbc.trans hab
  · intro s n s2 hn hs
    exact forall2_map_eq (rowKey m) (rowKey m) (applyColF_ok hs).2.2
      (fun a b hab => mapEntry_rowKey_eq (contains_false_ne hm hn) hab)

theorem cleanupCAF_ok {t t2 : Table} (h : cleanupCAF t = Except.ok t2) :
    ∃ ta tb, applyColF t "Water usage (gal)" caWaterCell = Except.ok ta ∧
      columns_with_comma.foldlM (fun acc n => applyColF acc n caCommaCell) ta = Except.ok tb ∧
      columns_with_pct.foldlM (fun acc n => applyColF acc n caPctCell) tb = Except.ok t2 := by
  unfold cleanupCAF at h
  rw [except_bind_ok] at h
  obtain ⟨ta, hta, h⟩ := h
  rw [except_bind_ok] at h
  obtain ⟨tb, htb, h⟩ := h
  exact ⟨ta, tb, hta, htb, h⟩

/-! Decomposition of a successful pipeline run into its stages. -/

theorem process_data_ok {file : PyFile} {s : String} {adj : DateTime} {ex : List String}
    {t : Table} (h : process_data file s adj ex = Except.ok t) :
    ∃ df0 df1 df2 df3 cutoff df6 df7 df8,
      read_file file = Except.ok df0 ∧
      snFilterOpt df0 ex = Except.ok df1 ∧
      dropColumnsF df1 drop_columns_metric = Except.ok df2 ∧
      insertIdCol df2 = Except.ok df3 ∧
      strptime s = some cutoff ∧
      (∃ df4, toDatetimeColF df3 "Receive task report time" = Except.ok df4 ∧
        snFilterOpt (timeFilterF df4 "Receive task report time" cutoff) ex = Except.ok df6) ∧
      selectColsF (ensureCols (sortDescBy "Receive task report time" df6) column_order_metric)
        column_order_metric = Except.ok df7 ∧
      setColsF df7 columns_to_update_metric (Cell.time adj) = Except.ok df8 ∧
      cleanupMetricF (fillNullF (replaceDash df8)) = Except.ok t := by
  unfold process_data at h
  rw [except_bind_ok] at h
  obtain ⟨df0, h0, h⟩ := h
  rw [except_bind_ok] at h
  obtain ⟨df1, h1, h⟩ := h
  rw [except_bind_ok] at h
  obtain ⟨df2, h2, h⟩ := h
  rw [except_bind_ok] at h
  obtain ⟨df3, h3, h⟩ := h
  rw [except_bind_ok] at h
  obtain ⟨cutoff, hc, h⟩ := h
  rw [parseCutoff_ok] at hc
  rw [except_bind_ok] at h
  obtain ⟨df4, h4, h⟩ := h
  rw [except_bind_ok] at h
  obtain ⟨df6, h6, h⟩ := h
  rw [except_bind_ok] at h
  obtain ⟨df7, h7, h⟩ := h
  rw [except_bind_ok] at h
  obtain ⟨df8, h8, h⟩ := h
  exact ⟨df0, df1, df2, df3, cutoff, df6, df7, df8, h0, h1, h2, h3, hc,
    ⟨df4, h4, h6⟩, h7, h8, h⟩

theorem process_ca_data_ok {file : PyFile} {s : String} {adj : DateTime} {ex : List String}
    {t : Table} (h : process_ca_data file s adj ex = Except.ok t) :
    ∃ df0 df1 df2 df3 cutoff df6 df7 df8,
      read_file file = Except.ok df0 ∧
      snFilterOpt df0 ex = Except.ok df1 ∧
      dropColumnsF df1 drop_columns_ca = Except.ok df2 ∧
      insertIdCol df2 = Except.ok df3 ∧
      strptime s = some cutoff ∧
      (∃ df4, toDatetimeColF df3 "Receive task report time" = Except.ok df4 ∧
        snFilterOpt (timeFilterF df4 "Receive task report time" cutoff) ex = Except.ok df6) ∧
      selectColsF (sortDescBy "Receive task report time" df6) column_order_ca = Except.ok df7 ∧
      setColsF df7 columns_to_update_ca (Cell.time adj) = Except.ok df8 ∧
      cleanupCAF (fillNullF (replaceDash df8)) = Except.ok t := by
  unfold process_ca_data at h
  rw [except_bind_ok] at h
  obtain ⟨df0, h0, h⟩ := h
  rw [except_bind_ok] at h
  obtain ⟨df1, h1, h⟩ := h
  rw [except_bind_ok] at h
  obtain ⟨df2, h2, h⟩ := h
  rw [except_bind_ok] at h
  obtain ⟨df3, h3, h⟩ := h
  rw [except_bind_ok] at h
  obtain ⟨cutoff, hc, h⟩ := h
  rw [parseCutoff_ok] at hc
  rw [except_bind_ok] at h
  obtain ⟨df4, h4, h⟩ := h
  rw [except_bind_ok] at h
  obtain ⟨df6, h6, h⟩ := h
  rw [except_bind_ok] at h
  obtain ⟨df7, h7, h⟩ := h
  rw [except_bind_ok] at h
  obtain ⟨df8, h8, h⟩ := h
  exact ⟨df0, df1, df2, df3, cutoff, df6, df7, df8, h0, h1, h2, h3, hc,
    ⟨df4, h4, h6⟩, h7, h8, h⟩




/-! Helper lemmas for the pipeline master facts. -/

theorem timeAfter_getD {cutoff : DateTime} {o : Option Cell}
    (h : timeAfter cutoff (o.getD Cell.na) = true) :
    ∃ d, o = some (Cell.time d) ∧ cutoff.key < d.key := by
  cases o with
  | none => simp [timeAfter] at h
  | some c =>
    cases c with
    | time d => exact ⟨d, rfl, by simpa [timeAfter] using h⟩
    | str s => simp [timeAfter] at h
    | int n => simp [timeAfter] at h
    | float q => simp [timeAfter] at h
    | na => simp [timeAfter] at h

theorem hasCol_congr_cols {t t2 : Table} (h : t2.cols = t.cols) (m : String) :
    hasCol t2 m = hasCol t m := by
  unfold hasCol colNames
  rw [h]

theorem colNames_of_pairs (order : List String) (g : String → Dtype) :
    (order.map (fun n => (n, g n))).map (fun p => p.1) = order := by
  induction order with
  | nil => rfl
  | cons n ns ih =>
    show (n, g n).1 :: (ns.map (fun x => (x, g x))).map (fun p => p.1) = n :: ns
    rw [ih]

theorem rlookup_setRow_ne {names : List String} {c : Cell} {r : List Entry} {m : String}
    (hm : names.contains m = false) :
    rlookup (r.map (fun p => (p.1, if names.contains p.1 then c else p.2))) m =
      rlookup r m := by
  rw [rlookup_setRow, hm]
  cases rlookup r m <;> rfl

theorem rlookup_setRow_mem {names : List String} {c : Cell} {r : List Entry} {m : String}
    (hm : names.contains m = true) :
    rlookup (r.map (fun p => (p.1, if names.contains p.1 then c else p.2))) m =
      (rlookup r m).map (fun _ => c) := by
  rw [rlookup_setRow, hm]
  cases rlookup r m <;> rfl

theorem colNames_fillNullF (t : Table) : colNames (fillNullF t) = colNames t := by
  simp [colNames, fillNullF, List.map_map]

theorem colNames_replaceDash (t : Table) : colNames (replaceDash t) = colNames t := rfl

theorem colNames_select {t : Table} {order : List String} {t2 : Table}
    (h : selectColsF t order = Except.ok t2) : colNames t2 = order := by
  obtain ⟨_, hcols, _⟩ := selectColsF_ok h
  show t2.cols.map (fun p => p.1) = order
  rw [hcols]
  exact colNames_of_pairs order _

theorem colNames_setColsF {t t2 : Table} {names : List String} {c : Cell}
    (h : setColsF t names c = Except.ok t2) : colNames t2 = colNames t := by
  obtain ⟨_, hcols, _⟩ := setColsF_ok h
  show t2.cols.map (fun p => p.1) = colNames t
  rw [hcols]
  simp [colNames, List.map_map]

/-- Master facts established by a successful metric pipeline run, used by
several claims: the output carries exactly the canonical metric columns,
every row has a report time strictly after the cutoff, rows are ordered
non-increasingly by report time, the crystallization cells equal the
adjusted timestamp, and a surviving serial-number cell matching the
exclusion list can only be the fillna sentinel. -/
theorem process_data_master {file : PyFile} {s : String} {adj : DateTime} {ex : List String}
    {t : Table} (h : process_data file s adj ex = Except.ok t) :
    ∃ cutoff, strptime s = some cutoff ∧
      colNames t = column_order_metric ∧
      (∀ r ∈ t.rows, rowNames r = column_order_metric) ∧
      (∀ r ∈ t.rows, ∃ d, rlookup r "Receive task report time" = some (Cell.time d) ∧
        cutoff.key < d.key) ∧
      (t.rows.map (rowKey "Receive task report time")).Pairwise (fun x y => y ≤ x) ∧
      (∀ r ∈ t.rows,
        rlookup r "Planned crystallization area (㎡)" = some (Cell.time adj) ∧
        rlookup r "Actual crystallization area (㎡)" = some (Cell.time adj)) ∧
      (ex ≠ [] → ∀ r ∈ t.rows, ∀ c, rlookup r "S/N" = some c →
        cellInList c ex = true → c = Cell.str "NULL") := by
  obtain ⟨df0, df1, df2, df3, cutoff, df6, df7, df8, h0, h1, h2, h3, hc, hmid, h7, h8, h9⟩ :=
    process_data_ok h
  obtain ⟨df4, h4, h6⟩ := hmid
  refine ⟨cutoff, hc, ?_⟩
  set sorted := sortDescBy "Receive task report time" df6 with hsorted
  set ens := ensureCols sorted column_order_metric with hens
  set G := fillNullF (replaceDash df8) with hG
  have W6 : ∀ r ∈ df6.rows, ∃ d,
      rlookup r "Receive task report time" = some (Cell.time d) ∧ cutoff.key < d.key := by
    intro r hr
    exact timeAfter_getD (timeFilterF_mem (snFilterOpt_ok_sub h6 r hr)).2
  have SN6 : ex ≠ [] → ∀ r ∈ df6.rows, snMask r ex = false := fun hex =>
    snFilterOpt_ok_mask hex h6
  have hSNcol : ex ≠ [] → hasCol df6 "S/N" = true := by
    intro hex
    rcases snFilterOpt_ok_cases h6 with ⟨he, _⟩ | ⟨_, hsf⟩
    · exact absurd he hex
    · obtain ⟨hhas, hcols, _⟩ := snFilter_ok hsf
      rw [hasCol_congr_cols hcols]
      exact hhas
  have Ws : ∀ r ∈ sorted.rows, ∃ d,
      rlookup r "Receive task report time" = some (Cell.time d) ∧ cutoff.key < d.key :=
    fun r hr => W6 r (mem_sortDescBy.mp hr)
  have SNs : ex ≠ [] → ∀ r ∈ sorted.rows, snMask r ex = false :=
    fun hex r hr => SN6 hex r (mem_sortDescBy.mp hr)
  have Sorted_s : ((sorted.rows.map (rowKey "Receive task report time")).Pairwise
      (fun x y => y ≤ x)) :=
    List.pairwise_map.mpr (pairwise_sortDescBy _ _)
  obtain ⟨L, hLrows, hLent, _⟩ := ensureCols_rows column_order_metric sorted
  have W_e : ∀ r2 ∈ ens.rows, ∃ d,
      rlookup r2 "Receive task report time" = some (Cell.time d) ∧ cutoff.key < d.key := by
    intro r2 hr2
    rw [hLrows] at hr2
    obtain ⟨r, hr, rfl⟩ := List.mem_map.mp hr2
    obtain ⟨d, hd, hk⟩ := Ws r hr
    refine ⟨d, ?_, hk⟩
    rw [rlookup_append, hd]
    rfl
  have SN_e : ex ≠ [] → ∀ r2 ∈ ens.rows, ∀ c,
      rlookup r2 "S/N" = some c → cellInList c ex = false := by
    intro hex r2 hr2 c hlc
    rw [hLrows] at hr2
    obtain ⟨r, hr, rfl⟩ := List.mem_map.mp hr2
    rw [rlookup_append] at hlc
    cases hrc : rlookup r "S/N" with
    | some c0 =>
      rw [hrc] at hlc
      obtain rfl : c0 = c := by simpa using hlc
      have hmask := SNs hex r hr
      unfold snMask at hmask
      rw [hrc] at hmask
      simpa using hmask
    | none =>
      rw [hrc] at hlc
      have hnone : rlookup L "S/N" = none := by
        apply rlookup_eq_none_of_not_mem
        intro hmem
        obtain ⟨p, hp, hp1⟩ := List.mem_map.mp hmem
        have hfalse := (hLent p hp).2
        rw [hp1] at hfalse
        have h2 : hasCol sorted "S/N" = hasCol df6 "S/N" :=
          hasCol_congr_cols (cols_sortDescBy _ _) _
        rw [h2, hSNcol hex] at hfalse
        exact Bool.noConfusion hfalse
      rw [hnone] at hlc
      exact Option.noConfusion hlc
  have Keys_e : ens.rows.map (rowKey "Receive task report time") =
      sorted.rows.map (rowKey "Receive task report time") := by
    rw [hLrows, List.map_map]
    apply List.map_congr_left
    intro r hr
    obtain ⟨d, hd, _⟩ := Ws r hr
    show rowKey "Receive task report time" (r ++ L) = rowKey "Receive task report time" r
    rw [rowKey_eq_cellKey, rowKey_eq_cellKey, rlookup_append, hd]
    rfl
  obtain ⟨hall7, hcols7, hrows7⟩ := selectColsF_ok h7
  have colN7 : colNames df7 = column_order_metric := colNames_select h7
  have W7 : ∀ r2 ∈ df7.rows, ∃ d,
      rlookup r2 "Receive task report time" = some (Cell.time d) ∧ cutoff.key < d.key := by
    intro r2 hr2
    rw [hrows7] at hr2
    obtain ⟨r, hr, rfl⟩ := List.mem_map.mp hr2
    obtain ⟨d, hd, hk⟩ := W_e r hr
    refine ⟨d, ?_, hk⟩
    rw [rlookup_selRow r column_order_metric "Receive task report time" (by decide), hd]
    rfl
  have rowN7 : ∀ r2 ∈ df7.rows, rowNames r2 = column_order_metric := by
    intro r2 hr2
    rw [hrows7] at hr2
    obtain ⟨r, hr, rfl⟩ := List.mem_map.mp hr2
    exact rowNames_selRow column_order_metric _
  have SN7 : ex ≠ [] → ∀ r2 ∈ df7.rows, ∀ c,
      rlookup r2 "S/N" = some c → cellInList c ex = false := by
    intro hex r2 hr2 c hlc
    rw [hrows7] at hr2
    obtain ⟨r, hr, rfl⟩ := List.mem_map.mp hr2
    rw [rlookup_selRow r column_order_metric "S/N" (by decide)] at hlc
    cases hrc : rlookup r "S/N" with
    | some c0 =>
      rw [hrc] at hlc
      obtain rfl : c0 = c := by simpa using hlc
      exact SN_e hex r hr c0 hrc
    | none =>
      rw [hrc] at hlc
      obtain rfl : Cell.na = c := by simpa using hlc
      rfl
  have Crys7 : ∀ r2 ∈ df7.rows,
      (∃ c0, rlookup r2 "Planned crystallization area (㎡)" = some c0) ∧
      (∃ c0, rlookup r2 "Actual crystallization area (㎡)" = some c0) := by
    intro r2 hr2
    rw [hrows7] at hr2
    obtain ⟨r, hr, rfl⟩ := List.mem_map.mp hr2
    exact ⟨⟨_, rlookup_selRow r column_order_metric _ (by decide)⟩,
           ⟨_, rlookup_selRow r column_order_metric _ (by decide)⟩⟩
  have Keys7 : df7.rows.map (rowKey "Receive task report time") =
      ens.rows.map (rowKey "Receive task report time") := by
    rw [hrows7, List.map_map]
    apply List.map_congr_left
    intro r hr
    obtain ⟨d, hd, _⟩ := W_e r hr
    show rowKey "Receive task report time"
        (column_order_metric.map (fun n => (n, (rlookup r n).getD Cell.na))) =
      rowKey "Receive task report time" r
    rw [rowKey_eq_cellKey, rowKey_eq_cellKey,
      rlookup_selRow r column_order_metric "Receive task report time" (by decide), hd]
    rfl
  obtain ⟨hall8, hcols8, hrows8⟩ := setColsF_ok h8
  have colN8 : colNames df8 = column_order_metric := by
    rw [colNames_setColsF h8, colN7]
  have W8 : ∀ r2 ∈ df8.rows, ∃ d,
      rlookup r2 "Receive task report time" = some (Cell.time d) ∧ cutoff.key < d.key := by
    intro r2 hr2
    rw [hrows8] at hr2
    obtain ⟨r, hr, rfl⟩ := List.mem_map.mp hr2
    obtain ⟨d, hd, hk⟩ := W7 r hr
    refine ⟨d, ?_, hk⟩
    rw [rlookup_setRow_ne (by decide), hd]
  have rowN8 : ∀ r2 ∈ df8.rows, rowNames r2 = column_order_metric := by
    intro r2 hr2
    rw [hrows8] at hr2
    obtain ⟨r, hr, rfl⟩ := List.mem_map.mp hr2
    rw [rowNames_setRow]
    exact rowN7 r hr
  have SN8 : ex ≠ [] → ∀ r2 ∈ df8.rows, ∀ c,
      rlookup r2 "S/N" = some c → cellInList c ex = false := by
    intro hex r2 hr2 c hlc
    rw [hrows8] at hr2
    obtain ⟨r, hr, rfl⟩ := List.mem_map.mp hr2
    rw [rlookup_setRow_ne (by decide)] at hlc
    exact SN7 hex r hr c hlc
  have Crys8 : ∀ r2 ∈ df8.rows,
      rlookup r2 "Planned crystallization area (㎡)" = some (Cell.time adj) ∧
      rlookup r2 "Actual crystallization area (㎡)" = some (Cell.time adj) := by
    intro r2 hr2
    rw [hrows8] at hr2
    obtain ⟨r, hr, rfl⟩ := List.mem_map.mp hr2
    obtain ⟨⟨c1, hc1⟩, ⟨c2, hc2⟩⟩ := Crys7 r hr
    constructor
    · rw [rlookup_setRow_mem (by decide), hc1]
      rfl
    · rw [rlookup_setRow_mem (by decide), hc2]
      rfl
  have Keys8 : df8.rows.map (rowKey "Receive task report time") =
      df7.rows.map (rowKey "Receive task report time") := by
    rw [hrows8, List.map_map]
    apply List.map_congr_left
    intro r _
    exact rowKey_setRow _ _ r _ (by decide)
  have hGrows : G.rows =
      (df8.rows.map (fun r => r.map (fun p => (p.1, replaceDashCell p.2)))).map
        (fun r => r.map (fun p => (p.1, fillNullCell p.2))) := rfl
  have colNG : colNames G = column_order_metric := by
    rw [hG, colNames_fillNullF, colNames_replaceDash, colN8]
  have W_G : ∀ r2 ∈ G.rows, ∃ d,
      rlookup r2 "Receive task report time" = some (Cell.time d) ∧ cutoff.key < d.key := by
    intro r2 hr2
    rw [hGrows] at hr2
    obtain ⟨r1, hr1, rfl⟩ := List.mem_map.mp hr2
    obtain ⟨r, hr, rfl⟩ := List.mem_map.mp hr1
    obtain ⟨d, hd, hk⟩ := W8 r hr
    refine ⟨d, ?_, hk⟩
    rw [rlookup_fillRow, rlookup_replaceRow, hd]
    rfl
  have rowNG : ∀ r2 ∈ G.rows, rowNames r2 = column_order_metric := by
    intro r2 hr2
    rw [hGrows] at hr2
    obtain ⟨r1, hr1, rfl⟩ := List.mem_map.mp hr2
    obtain ⟨r, hr, rfl⟩ := List.mem_map.mp hr1
    rw [rowNames_fillRow, rowNames_replaceRow]
    exact rowN8 r hr
  have CrysG : ∀ r2 ∈ G.rows,
      rlookup r2 "Planned crystallization area (㎡)" = some (Cell.time adj) ∧
      rlookup r2 "Actual crystallization area (㎡)" = some (Cell.time adj) := by
    intro r2 hr2
    rw [hGrows] at hr2
    obtain ⟨r1, hr1, rfl⟩ := List.mem_map.mp hr2
    obtain ⟨r, hr, rfl⟩ := List.mem_map.mp hr1
    obtain ⟨hc1, hc2⟩ := Crys8 r hr
    constructor
    · rw [rlookup_fillRow, rlookup_replaceRow, hc1]
      rfl
    · rw [rlookup_fillRow, rlookup_replaceRow, hc2]
      rfl
  have SN_G : ex ≠ [] → ∀ r2 ∈ G.rows, ∀ c, rlookup r2 "S/N" = some c →
      cellInList c ex = true → c = Cell.str "NULL" := by
    intro hex r2 hr2 c hlc hin
    rw [hGrows] at hr2
    obtain ⟨r1, hr1, rfl⟩ := List.mem_map.mp hr2
    obtain ⟨r, hr, rfl⟩ := List.mem_map.mp hr1
    rw [rlookup_fillRow, rlookup_replaceRow] at hlc
    cases hrc : rlookup r "S/N" with
    | none =>
      rw [hrc] at hlc
      exact Option.noConfusion hlc
    | some c0 =>
      rw [hrc] at hlc
      have hcc : fillNullCell (replaceDashCell c0) = c := by simpa using hlc
      have hc0 : cellInList c0 ex = false := SN8 hex r hr c0 hrc
      by_cases hdash : c0 = Cell.str "-"
      · exfalso
        rw [← hcc, hdash] at hin
        exact Bool.noConfusion hin
      · by_cases hna : c0 = Cell.na
        · rw [← hcc, hna]
          rfl
        · exfalso
          have heq : fillNullCell (replaceDashCell c0) = c0 := by
            unfold replaceDashCell fillNullCell
            rw [if_neg hdash, if_neg hna]
          rw [← hcc, heq, hc0] at hin
          exact Bool.noConfusion hin
  have KeysG : G.rows.map (rowKey "Receive task report time") =
      df8.rows.map (rowKey "Receive task report time") := by
    rw [hGrows, List.map_map, List.map_map]
    apply List.map_congr_left
    intro r _
    show rowKey "Receive task report time"
        ((r.map (fun p => (p.1, replaceDashCell p.2))).map
          (fun p => (p.1, fillNullCell p.2))) = rowKey "Receive task report time" r
    rw [rowKey_fillRow, rowKey_replaceRow]
  have h9b : columns_with_comma_or_pct.foldlM cleanupColMetricF G = Except.ok t := h9
  refine ⟨?_, ?_, ?_, ?_, ?_, ?_⟩
  · rw [cleanupFold_colNames h9b, colNG]
  · exact cleanupFold_rowsP
      (fun n hn r r2 hF hPr => by rw [mapEntryM_ok_names hF]; exact hPr) h9b rowNG
  · exact cleanupFold_rowsP
      (fun n hn => mapEntry_pres_lookupP (contains_false_ne (by decide) hn)
        (Q := fun o => ∃ d, o = some (Cell.time d) ∧ cutoff.key < d.key)) h9b W_G
  · rw [cleanupFold_keys (by decide) h9b, KeysG, Keys8, Keys7, Keys_e]
    exact Sorted_s
  · exact cleanupFold_rowsP
      (fun n hn r r2 hF hPr =>
        ⟨mapEntry_pres_lookupP (contains_false_ne (by decide) hn)
          (Q := fun o => o = some (Cell.time adj)) r r2 hF hPr.1,
         mapEntry_pres_lookupP (contains_false_ne (by decide) hn)
          (Q := fun o => o = some (Cell.time adj)) r r2 hF hPr.2⟩) h9b CrysG
  · intro hex
    exact cleanupFold_rowsP
      (fun n hn => mapEntry_pres_lookupP (contains_false_ne (by decide) hn)
        (Q := fun o => ∀ c, o = some c → cellInList c ex = true → c = Cell.str "NULL"))
      h9b (SN_G hex)

/-- Master facts established by a successful imperial pipeline run,
mirroring process_data_master for process_ca_data (which synthesizes no
missing columns and converts units during cleanup). -/
theorem process_ca_data_master {file : PyFile} {s : String} {adj : DateTime}
    {ex : List String} {t : Table} (h : process_ca_data file s adj ex = Except.ok t) :
    ∃ cutoff, strptime s = some cutoff ∧
      colNames t = column_order_ca ∧
      (∀ r ∈ t.rows, rowNames r = column_order_ca) ∧
      (∀ r ∈ t.rows, ∃ d, rlookup r "Receive task report time" = some (Cell.time d) ∧
        cutoff.key < d.key) ∧
      (t.rows.map (rowKey "Receive task report time")).Pairwise (fun x y => y ≤ x) ∧
      (∀ r ∈ t.rows,
        rlookup r "Planned crystallization area (ft²)" = some (Cell.time adj) ∧
        rlookup r "Actual crystallization area (ft²)" = some (Cell.time adj)) ∧
      (ex ≠ [] → ∀ r ∈ t.rows, ∀ c, rlookup r "S/N" = some c →
        cellInList c ex = true → c = Cell.str "NULL") := by
  obtain ⟨df0, df1, df2, df3, cutoff, df6, df7, df8, h0, h1, h2, h3, hc, hmid, h7, h8, h9⟩ :=
    process_ca_data_ok h
  obtain ⟨df4, h4, h6⟩ := hmid
  refine ⟨cutoff, hc, ?_⟩
  set sorted := sortDescBy "Receive task report time" df6 with hsorted
  set G := fillNullF (replaceDash df8) with hG
  have W6 : ∀ r ∈ df6.rows, ∃ d,
      rlookup r "Receive task report time" = some (Cell.time d) ∧ cutoff.key < d.key := by
    intro r hr
    exact timeAfter_getD (timeFilterF_mem (snFilterOpt_ok_sub h6 r hr)).2
  have SN6 : ex ≠ [] → ∀ r ∈ df6.rows, snMask r ex = false := fun hex =>
    snFilterOpt_ok_mask hex h6
  have Ws : ∀ r ∈ sorted.rows, ∃ d,
      rlookup r "Receive task report time" = some (Cell.time d) ∧ cutoff.key < d.key :=
    fun r hr => W6 r (mem_sortDescBy.mp hr)
  have SNs : ex ≠ [] → ∀ r ∈ sorted.rows, snMask r ex = false :=
    fun hex r hr => SN6 hex r (mem_sortDescBy.mp hr)
  have Sorted_s : ((sorted.rows.map (rowKey "Receive task report time")).Pairwise
      (fun x y => y ≤ x)) :=
    List.pairwise_map.mpr (pairwise_sortDescBy _ _)
  obtain ⟨hall7, hcols7, hrows7⟩ := selectColsF_ok h7
  have colN7 : colNames df7 = column_order_ca := colNames_select h7
  have W7 : ∀ r2 ∈ df7.rows, ∃ d,
      rlookup r2 "Receive task report time" = some (Cell.time d) ∧ cutoff.key < d.key := by
    intro r2 hr2
    rw [hrows7] at hr2
    obtain ⟨r, hr, rfl⟩ := List.mem_map.mp hr2
    obtain ⟨d, hd, hk⟩ := Ws r hr
    refine ⟨d, ?_, hk⟩
    rw [rlookup_selRow r column_order_ca "Receive task report time" (by decide), hd]
    rfl
  have rowN7 : ∀ r2 ∈ df7.rows, rowNames r2 = column_order_ca := by
    intro r2 hr2
    rw [hrows7] at hr2
    obtain ⟨r, hr, rfl⟩ := List.mem_map.mp hr2
    exact rowNames_selRow column_order_ca _
  have SN7 : ex ≠ [] → ∀ r2 ∈ df7.rows, ∀ c,
      rlookup r2 "S/N" = some c → cellInList c ex = false := by
    intro hex r2 hr2 c hlc
    rw [hrows7] at hr2
    obtain ⟨r, hr, rfl⟩ := List.mem_map.mp hr2
    rw [rlookup_selRow r column_order_ca "S/N" (by decide)] at hlc
    cases hrc : rlookup r "S/N" with
    | some c0 =>
      rw [hrc] at hlc
      obtain rfl : c0 = c := by simpa using hlc
      have hmask := SNs hex r hr
      unfold snMask at hmask
      rw [hrc] at hmask
      simpa using hmask
    | none =>
      rw [hrc] at hlc
      obtain rfl : Cell.na = c := by simpa using hlc
      rfl
  have Crys7 : ∀ r2 ∈ df7.rows,
      (∃ c0, rlookup r2 "Planned crystallization area (ft²)" = some c0) ∧
      (∃ c0, rlookup r2 "Actual crystallization area (ft²)" = some c0) := by
    intro r2 hr2
    rw [hrows7] at hr2
    obtain ⟨r, hr, rfl⟩ := List.mem_map.mp hr2
    exact ⟨⟨_, rlookup_selRow r column_order_ca _ (by decide)⟩,
           ⟨_, rlookup_selRow r column_order_ca _ (by decide)⟩⟩
  have Keys7 : df7.rows.map (rowKey "Receive task report time") =
      sorted.rows.map (rowKey "Receive task report time") := by
    rw [hrows7, List.map_map]
    apply List.map_congr_left
    intro r hr
    obtain ⟨d, hd, _⟩ := Ws r hr
    show rowKey "Receive task report time"
        (column_order_ca.map (fun n => (n, (rlookup r n).getD Cell.na))) =
      rowKey "Receive task report time" r
    rw [rowKey_eq_cellKey, rowKey_eq_cellKey,
      rlookup_selRow r column_order_ca "Receive task report time" (by decide), hd]
    rfl
  obtain ⟨hall8, hcols8, hrows8⟩ := setColsF_ok h8
  have colN8 : colNames df8 = column_order_ca := by
    rw [colNames_setColsF h8, colN7]
  have W8 : ∀ r2 ∈ df8.rows, ∃ d,
      rlookup r2 "Receive task report time" = some (Cell.time d) ∧ cutoff.key < d.key := by
    intro r2 hr2
    rw [hrows8] at hr2
    obtain ⟨r, hr, rfl⟩ := List.mem_map.mp hr2
    obtain ⟨d, hd, hk⟩ := W7 r hr
    refine ⟨d, ?_, hk⟩
    rw [rlookup_setRow_ne (by decide), hd]
  have rowN8 : ∀ r2 ∈ df8.rows, rowNames r2 = column_order_ca := by
    intro r2 hr2
    rw [hrows8] at hr2
    obtain ⟨r, hr, rfl⟩ := List.mem_map.mp hr2
    rw [rowNames_setRow]
    exact rowN7 r hr
  have SN8 : ex ≠ [] → ∀ r2 ∈ df8.rows, ∀ c,
      rlookup r2 "S/N" = some c → cellInList c ex = false := by
    intro hex r2 hr2 c hlc
    rw [hrows8] at hr2
    obtain ⟨r, hr, rfl⟩ := List.mem_map.mp hr2
    rw [rlookup_setRow_ne (by decide)] at hlc
    exact SN7 hex r hr c hlc
  have Crys8 : ∀ r2 ∈ df8.rows,
      rlookup r2 "Planned crystallization area (ft²)" = some (Cell.time adj) ∧
      rlookup r2 "Actual crystallization area (ft²)" = some (Cell.time adj) := by
    intro r2 hr2
    rw [hrows8] at hr2
    obtain ⟨r, hr, rfl⟩ := List.mem_map.mp hr2
    obtain ⟨⟨c1, hc1⟩, ⟨c2, hc2⟩⟩ := Crys7 r hr
    constructor
    · rw [rlookup_setRow_mem (by decide), hc1]
      rfl
    · rw [rlookup_setRow_mem (by decide), hc2]
      rfl
  have Keys8 : df8.rows.map (rowKey "Receive task report time") =
      df7.rows.map (rowKey "Receive task report time") := by
    rw [hrows8, List.map_map]
    apply List.map_congr_left
    intro r _
    exact rowKey_setRow _ _ r _ (by decide)
  have hGrows : G.rows =
      (df8.rows.map (fun r => r.map (fun p => (p.1, replaceDashCell p.2)))).map
        (fun r => r.map (fun p => (p.1, fillNullCell p.2))) := rfl
  have colNG : colNames G = column_order_ca := by
    rw [hG, colNames_fillNullF, colNames_replaceDash, colN8]
  have W_G : ∀ r2 ∈ G.rows, ∃ d,
      rlookup r2 "Receive task report time" = some (Cell.time d) ∧ cutoff.key < d.key := by
    intro r2 hr2
    rw [hGrows] at hr2
    obtain ⟨r1, hr1, rfl⟩ := List.mem_map.mp hr2
    obtain ⟨r, hr, rfl⟩ := List.mem_map.mp hr1
    obtain ⟨d, hd, hk⟩ := W8 r hr
    refine ⟨d, ?_, hk⟩
    rw [rlookup_fillRow, rlookup_replaceRow, hd]
    rfl
  have rowNG : ∀ r2 ∈ G.rows, rowNames r2 = column_order_ca := by
    intro r2 hr2
    rw [hGrows] at hr2
    obtain ⟨r1, hr1, rfl⟩ := List.mem_map.mp hr2
    obtain ⟨r, hr, rfl⟩ := List.mem_map.mp hr1
    rw [rowNames_fillRow, rowNames_replaceRow]
    exact rowN8 r hr
  have CrysG : ∀ r2 ∈ G.rows,
      rlookup r2 "Planned crystallization area (ft²)" = some (Cell.time adj) ∧
      rlookup r2 "Actual crystallization area (ft²)" = some (Cell.time adj) := by
    intro r2 hr2
    rw [hGrows] at hr2
    obtain ⟨r1, hr1, rfl⟩ := List.mem_map.mp hr2
    obtain ⟨r, hr, rfl⟩ := List.mem_map.mp hr1
    obtain ⟨hc1, hc2⟩ := Crys8 r hr
    constructor
    · rw [rlookup_fillRow, rlookup_replaceRow, hc1]
      rfl
    · rw [rlookup_fillRow, rlookup_replaceRow, hc2]
      rfl
  have SN_G : ex ≠ [] → ∀ r2 ∈ G.rows, ∀ c, rlookup r2 "S/N" = some c →
      cellInList c ex = true → c = Cell.str "NULL" := by
    intro hex r2 hr2 c hlc hin
    rw [hGrows] at hr2
    obtain ⟨r1, hr1, rfl⟩ := List.mem_map.mp hr2
    obtain ⟨r, hr, rfl⟩ := List.mem_map.mp hr1
    rw [rlookup_fillRow, rlookup_replaceRow] at hlc
    cases hrc : rlookup r "S/N" with
    | none =>
      rw [hrc] at hlc
      exact Option.noConfusion hlc
    | some c0 =>
      rw [hrc] at hlc
      have hcc : fillNullCell (replaceDashCell c0) = c := by simpa using hlc
      have hc0 : cellInList c0 ex = false := SN8 hex r hr c0 hrc
      by_cases hdash : c0 = Cell.str "-"
      · exfalso
        rw [← hcc, hdash] at hin
        exact Bool.noConfusion hin
      · by_cases hna : c0 = Cell.na
        · rw [← hcc, hna]
          rfl
        · exfalso
          have heq : fillNullCell (replaceDashCell c0) = c0 := by
            unfold replaceDashCell fillNullCell
            rw [if_neg hdash, if_neg hna]
          rw [← hcc, heq, hc0] at hin
          exact Bool.noConfusion hin
  have KeysG : G.rows.map (rowKey "Receive task report time") =
      df8.rows.map (rowKey "Receive task report time") := by
    rw [hGrows, List.map_map, List.map_map]
    apply List.map_congr_left
    intro r _
    show rowKey "Receive task report time"
        ((r.map (fun p => (p.1, replaceDashCell p.2))).map
          (fun p => (p.1, fillNullCell p.2))) = rowKey "Receive task report time" r
    rw [rowKey_fillRow, rowKey_replaceRow]
  obtain ⟨ta, tb, hWat, hCom, hPct⟩ := cleanupCAF_ok h9
  have transP : ∀ (P : List Entry → Prop),
      (∀ r r2, mapEntryM "Water usage (gal)" caWaterCell r = Except.ok r2 → P r → P r2) →
      (∀ n ∈ columns_with_comma, ∀ r r2,
        mapEntryM n caCommaCell r = Except.ok r2 → P r → P r2) →
      (∀ n ∈ columns_with_pct, ∀ r r2,
        mapEntryM n caPctCell r = Except.ok r2 → P r → P r2) →
      (∀ r ∈ G.rows, P r) → ∀ r2 ∈ t.rows, P r2 := by
    intro P hW hC hP hall
    exact applyColFold_rowsP hP hPct (applyColFold_rowsP hC hCom
      (forall2_rowsP (applyColF_ok hWat).2.2 hW hall))
  refine ⟨?_, ?_, ?_, ?_, ?_, ?_⟩
  · rw [applyColFold_colNames hPct, applyColFold_colNames hCom, (applyColF_ok hWat).2.1,
      colNG]
  · exact transP _ (fun r r2 hF hPr => by rw [mapEntryM_ok_names hF]; exact hPr)
      (fun n hn r r2 hF hPr => by rw [mapEntryM_ok_names hF]; exact hPr)
      (fun n hn r r2 hF hPr => by rw [mapEntryM_ok_names hF]; exact hPr) rowNG
  · exact transP _
      (mapEntry_pres_lookupP (by decide)
        (Q := fun o => ∃ d, o = some (Cell.time d) ∧ cutoff.key < d.key))
      (fun n hn => mapEntry_pres_lookupP (contains_false_ne (by decide) hn)
        (Q := fun o => ∃ d, o = some (Cell.time d) ∧ cutoff.key < d.key))
      (fun n hn => mapEntry_pres_lookupP (contains_false_ne (by decide) hn)
        (Q := fun o => ∃ d, o = some (Cell.time d) ∧ cutoff.key < d.key)) W_G
  · rw [applyColFold_keys (by decide) hPct, applyColFold_keys (by decide) hCom,
      forall2_map_eq (rowKey "Receive task report time") (rowKey "Receive task report time")
        (applyColF_ok hWat).2.2 (fun a b hab => mapEntry_rowKey_eq (by decide) hab),
      KeysG, Keys8, Keys7]
    exact Sorted_s
  · exact transP _
      (fun r r2 hF hPr =>
        ⟨mapEntry_pres_lookupP (by decide)
          (Q := fun o => o = some (Cell.time adj)) r r2 hF hPr.1,
         mapEntry_pres_lookupP (by decide)
          (Q := fun o => o = some (Cell.time adj)) r r2 hF hPr.2⟩)
      (fun n hn r r2 hF hPr =>
        ⟨mapEntry_pres_lookupP (contains_false_ne (by decide) hn)
          (Q := fun o => o = some (Cell.time adj)) r r2 hF hPr.1,
         mapEntry_pres_lookupP (contains_false_ne (by decide) hn)
          (Q := fun o => o = some (Cell.time adj)) r r2 hF hPr.2⟩)
      (fun n hn r r2 hF hPr =>
        ⟨mapEntry_pres_lookupP (contains_false_ne (by decide) hn)
          (Q := fun o => o = some (Cell.time adj)) r r2 hF hPr.1,
         mapEntry_pres_lookupP (contains_false_ne (by decide) hn)
          (Q := fun o => o = some (Cell.time adj)) r r2 hF hPr.2⟩) CrysG
  · intro hex
    exact transP _
      (mapEntry_pres_lookupP (by decide)
        (Q := fun o => ∀ c, o = some c → cellInList c ex = true → c = Cell.str "NULL"))
      (fun n hn => mapEntry_pres_lookupP (contains_false_ne (by decide) hn)
        (Q := fun o => ∀ c, o = some c → cellInList c ex = true → c = Cell.str "NULL"))
      (fun n hn => mapEntry_pres_lookupP (contains_false_ne (by decide) hn)
        (Q := fun o => ∀ c, o = some c → cellInList c ex = true → c = Cell.str "NULL"))
      (SN_G hex)

/-! Closed-run helpers shared by the witnesses. -/

theorem wMetricRun_ok : (process_data wMetricFile wCutoffStr wAdj []).isOk = true := by
  decide

theorem wCaRun_ok : (process_ca_data wCaFile wCutoffStr wAdj []).isOk = true := by
  decide

/-- C2: for both pipeline variants, every output row's report-received cell
is a parsed timestamp strictly greater than the cutoff parsed from the
"YYYY-MM-DD HH:MM:SS" string; rows at or before the cutoff cannot appear,
since every surviving cell compares strictly greater. -/
theorem claim_C2_cutoff_strict (file : PyFile) (s : String) (adj : DateTime)
    (ex : List String) (t : Table) :
    (process_data file s adj ex = Except.ok t →
      ∃ cutoff, strptime s = some cutoff ∧
        ∀ r ∈ t.rows, ∃ d, rlookup r "Receive task report time" = some (Cell.time d) ∧
          cutoff.key < d.key) ∧
    (process_ca_data file s adj ex = Except.ok t →
      ∃ cutoff, strptime s = some cutoff ∧
        ∀ r ∈ t.rows, ∃ d, rlookup r "Receive task report time" = some (Cell.time d) ∧
          cutoff.key < d.key) := by
  constructor
  · intro h
    obtain ⟨cutoff, hc, _, _, W, _, _, _⟩ := process_data_master h
    exact ⟨cutoff, hc, W⟩
  · intro h
    obtain ⟨cutoff, hc, _, _, W, _, _, _⟩ := process_ca_data_master h
    exact ⟨cutoff, hc, W⟩

/-- Closed instance of claim C2 on concrete metric and imperial runs. -/
theorem claim_C2_witness :
    ∃ t1 t2 cutoff,
      process_data wMetricFile wCutoffStr wAdj [] = Except.ok t1 ∧
      process_ca_data wCaFile wCutoffStr wAdj [] = Except.ok t2 ∧
      strptime wCutoffStr = some cutoff ∧
      (∀ r ∈ t1.rows, ∃ d, rlookup r "Receive task report time" = some (Cell.time d) ∧
        cutoff.key < d.key) ∧
      (∀ r ∈ t2.rows, ∃ d, rlookup r "Receive task report time" = some (Cell.time d) ∧
        cutoff.key < d.key) := by
  have hOk1 := wMetricRun_ok
  have hOk2 := wCaRun_ok
  cases hE1 : process_data wMetricFile wCutoffStr wAdj [] with
  | error e =>
    rw [hE1] at hOk1
    exact Bool.noConfusion hOk1
  | ok t1 =>
    cases hE2 : process_ca_data wCaFile wCutoffStr wAdj [] with
    | error e =>
      rw [hE2] at hOk2
      exact Bool.noConfusion hOk2
    | ok t2 =>
      obtain ⟨c1, hc1, hW1⟩ := (claim_C2_cutoff_strict wMetricFile wCutoffStr wAdj [] t1).1 hE1
      obtain ⟨c2, hc2, hW2⟩ := (claim_C2_cutoff_strict wCaFile wCutoffStr wAdj [] t2).2 hE2
      have hcc : c1 = c2 := by
        rw [hc1] at hc2
        exact Option.some.inj hc2
      subst hcc
      exact ⟨t1, t2, c1, rfl, rfl, hc1, hW1, hW2⟩

/-- C3 (amended): output rows of both variants are ordered non-increasingly
by the report-received timestamp.  The original claim also asserted stable
tie order, which the code does not guarantee (sort_values is left at the
unstable quicksort default); see the counterexample against the sort
contract. -/
theorem claim_C3_sorted_desc (file : PyFile) (s : String) (adj : DateTime)
    (ex : List String) (t : Table) :
    (process_data file s adj ex = Except.ok t →
      t.rows.Pairwise (fun a b =>
        rowKey "Receive task report time" b ≤ rowKey "Receive task report time" a)) ∧
    (process_ca_data file s adj ex = Except.ok t →
      t.rows.Pairwise (fun a b =>
        rowKey "Receive task report time" b ≤ rowKey "Receive task report time" a)) := by
  constructor
  · intro h
    obtain ⟨cutoff, _, _, _, _, hpw, _, _⟩ := process_data_master h
    exact List.pairwise_map.mp hpw
  · intro h
    obtain ⟨cutoff, _, _, _, _, hpw, _, _⟩ := process_ca_data_master h
    exact List.pairwise_map.mp hpw

/-- C3 as stated is false: the sort contract left by the code (sort_values
with the default unstable quicksort kind, `sortValuesSpec`) admits an
output with two equal-timestamp rows swapped, which is not the
stable-descending order the claim demands. -/
theorem claim_C3_counterexample :
    sortValuesSpec "Receive task report time" [wTieRow "A", wTieRow "B"]
      [wTieRow "B", wTieRow "A"] ∧
    ¬ stableDescSort "Receive task report time" [wTieRow "A", wTieRow "B"]
      [wTieRow "B", wTieRow "A"] := by
  constructor
  · constructor
    · decide
    · decide
  · have hne : ¬([wTieRow "B", wTieRow "A"] =
        insertionSortDesc (rowKey "Receive task report time") [wTieRow "A", wTieRow "B"]) := by
      decide
    intro hst
    exact hne hst

/-- Closed instance of claim C3 (amended) on concrete runs. -/
theorem claim_C3_witness :
    ∃ t1 t2,
      process_data wMetricFile wCutoffStr wAdj [] = Except.ok t1 ∧
      process_ca_data wCaFile wCutoffStr wAdj [] = Except.ok t2 ∧
      t1.rows.Pairwise (fun a b =>
        rowKey "Receive task report time" b ≤ rowKey "Receive task report time" a) ∧
      t2.rows.Pairwise (fun a b =>
        rowKey "Receive task report time" b ≤ rowKey "Receive task report time" a) := by
  have hOk1 := wMetricRun_ok
  have hOk2 := wCaRun_ok
  cases hE1 : process_data wMetricFile wCutoffStr wAdj [] with
  | error e =>
    rw [hE1] at hOk1
    exact Bool.noConfusion hOk1
  | ok t1 =>
    cases hE2 : process_ca_data wCaFile wCutoffStr wAdj [] with
    | error e =>
      rw [hE2] at hOk2
      exact Bool.noConfusion hOk2
    | ok t2 =>
      exact ⟨t1, t2, rfl, rfl,
        (claim_C3_sorted_desc wMetricFile wCutoffStr wAdj [] t1).1 hE1,
        (claim_C3_sorted_desc wCaFile wCutoffStr wAdj [] t2).2 hE2⟩

/-- C4: in both variants every output row's two crystallization columns
hold exactly the caller-supplied adjusted timestamp, regardless of the
source cells. -/
theorem claim_C4_adjusted_timestamp (file : PyFile) (s : String) (adj : DateTime)
    (ex : List String) (t : Table) :
    (process_data file s adj ex = Except.ok t → ∀ r ∈ t.rows,
      rlookup r "Planned crystallization area (㎡)" = some (Cell.time adj) ∧
      rlookup r "Actual crystallization area (㎡)" = some (Cell.time adj)) ∧
    (process_ca_data file s adj ex = Except.ok t → ∀ r ∈ t.rows,
      rlookup r "Planned crystallization area (ft²)" = some (Cell.time adj) ∧
      rlookup r "Actual crystallization area (ft²)" = some (Cell.time adj)) := by
  constructor
  · intro h
    obtain ⟨cutoff, _, _, _, _, _, hcrys, _⟩ := process_data_master h
    exact hcrys
  · intro h
    obtain ⟨cutoff, _, _, _, _, _, hcrys, _⟩ := process_ca_data_master h
    exact hcrys

/-- Closed instance of claim C4 on concrete runs (the metric run's source
crystallization columns are absent, the imperial one's hold junk text; both
end as the adjusted timestamp). -/
theorem claim_C4_witness :
    ∃ t1 t2,
      process_data wMetricFile wCutoffStr wAdj [] = Except.ok t1 ∧
      process_ca_data wCaFile wCutoffStr wAdj [] = Except.ok t2 ∧
      (∀ r ∈ t1.rows,
        rlookup r "Planned crystallization area (㎡)" = some (Cell.time wAdj) ∧
        rlookup r "Actual crystallization area (㎡)" = some (Cell.time wAdj)) ∧
      (∀ r ∈ t2.rows,
        rlookup r "Planned crystallization area (ft²)" = some (Cell.time wAdj) ∧
        rlookup r "Actual crystallization area (ft²)" = some (Cell.time wAdj)) := by
  have hOk1 := wMetricRun_ok
  have hOk2 := wCaRun_ok
  cases hE1 : process_data wMetricFile wCutoffStr wAdj [] with
  | error e =>
    rw [hE1] at hOk1
    exact Bool.noConfusion hOk1
  | ok t1 =>
    cases hE2 : process_ca_data wCaFile wCutoffStr wAdj [] with
    | error e =>
      rw [hE2] at hOk2
      exact Bool.noConfusion hOk2
    | ok t2 =>
      exact ⟨t1, t2, rfl, rfl,
        (claim_C4_adjusted_timestamp wMetricFile wCutoffStr wAdj [] t1).1 hE1,
        (claim_C4_adjusted_timestamp wCaFile wCutoffStr wAdj [] t2).2 hE2⟩

/-- C1 (amended): only the metric variant synthesizes absent expected
columns — ensureCols gives every such column the value "NULL" in every row
(first conjunct, for frames whose rows mirror the column labels, as
DataFrames do), and a successful process_data run returns exactly the
expected columns (second conjunct); the imperial variant performs no
synthesis and its selection fails with a KeyError whenever an expected
column is absent (third conjunct). -/
theorem claim_C1_missing_columns :
    (∀ (t : Table) (c : String), (∀ r ∈ t.rows, rowNames r = colNames t) →
      c ∈ column_order_metric → hasCol t c = false →
      ∀ r2 ∈ (ensureCols t column_order_metric).rows,
        rlookup r2 c = some (Cell.str "NULL")) ∧
    (∀ (file : PyFile) (s : String) (adj : DateTime) (ex : List String) (t : Table),
      process_data file s adj ex = Except.ok t → colNames t = column_order_metric) ∧
    (∀ (t : Table) (c : String), c ∈ column_order_ca → hasCol t c = false →
      selectColsF t column_order_ca = Except.error (PError.keyError "columns not in index")) := by
  refine ⟨?_, ?_, ?_⟩
  · intro t c halign hco hmiss r2 hr2
    obtain ⟨L, hLrows, hLent, hLlook⟩ := ensureCols_rows column_order_metric t
    rw [hLrows] at hr2
    obtain ⟨r, hr, rfl⟩ := List.mem_map.mp hr2
    have hnone : rlookup r c = none := by
      apply rlookup_eq_none_of_not_mem
      rw [halign r hr]
      intro hmem
      have hcc : hasCol t c = true := List.elem_iff.mpr hmem
      rw [hmiss] at hcc
      exact Bool.noConfusion hcc
    rw [rlookup_append, hnone]
    show rlookup L c = some (Cell.str "NULL")
    exact hLlook c hco hmiss
  · intro file s adj ex t h
    obtain ⟨cutoff, _, hcolN, _⟩ := process_data_master h
    exact hcolN
  · intro t c hco hmiss
    exact selectColsF_err hco hmiss

/-- C1 as stated is false for the imperial variant: on an upload missing
the expected column "Task type" (and otherwise well-formed), process_ca_data
raises a KeyError instead of synthesizing the column with "NULL". -/
theorem claim_C1_counterexample :
    process_ca_data wCaMissingFile wCutoffStr wAdj [] =
      Except.error (PError.keyError "columns not in index") := by
  rfl

/-- Closed instance of claim C1 (amended): the metric run synthesizes the
absent "Task type" column with "NULL" and returns the full expected column
set, while the imperial selection fails on the same missing column. -/
theorem claim_C1_witness :
    (∀ r2 ∈ (ensureCols wMetricTable column_order_metric).rows,
      rlookup r2 "Task type" = some (Cell.str "NULL")) ∧
    (∃ t1, process_data wMetricFile wCutoffStr wAdj [] = Except.ok t1 ∧
      colNames t1 = column_order_metric) ∧
    selectColsF wCaMissingTable column_order_ca =
      Except.error (PError.keyError "columns not in index") := by
  refine ⟨?_, ?_, ?_⟩
  · exact claim_C1_missing_columns.1 wMetricTable "Task type" (by decide) (by decide) (by decide)
  · have hOk1 := wMetricRun_ok
    cases hE1 : process_data wMetricFile wCutoffStr wAdj [] with
    | error e =>
      rw [hE1] at hOk1
      exact Bool.noConfusion hOk1
    | ok t1 =>
      exact ⟨t1, rfl, claim_C1_missing_columns.2.1 wMetricFile wCutoffStr wAdj [] t1 hE1⟩
  · exact claim_C1_missing_columns.2.2 wCaMissingTable "Task type" (by decide) (by decide)

/-- C7: the reader's own docstring promises a distinct ValueError for an
unsupported extension, but the except clause at utils.py lines 71-72
catches that very ValueError and re-raises it as a RuntimeError, so the
caller sees one error kind for both failure modes: an unsupported
extension (first conjunct) surfaces exactly like a parse failure (second
conjunct), and the ValueError never escapes (third conjunct). -/
theorem claim_C7_error_collapse :
    read_file wTxtFile =
      Except.error (PError.runtimeError
        "An error occurred while reading the file: Unsupported file type: data.txt") ∧
    read_file wBadParseFile =
      Except.error (PError.runtimeError
        "An error occurred while reading the file: bad bytes") ∧
    read_file wTxtFile ≠
      Except.error (PError.valueError "Unsupported file type: data.txt") := by
  refine ⟨rfl, rfl, ?_⟩
  intro hcontra
  have h1 : read_file wTxtFile = Except.error (PError.runtimeError
      "An error occurred while reading the file: Unsupported file type: data.txt") := rfl
  rw [h1] at hcontra
  simp at hcontra

/-- Every failure of read_file reaches the caller as a RuntimeError: the
except clause leaves no other escaping error kind. -/
theorem read_file_error_kind (f : PyFile) (e : PError)
    (h : read_file f = Except.error e) : ∃ m, e = PError.runtimeError m := by
  unfold read_file at h
  cases hr : read_file_inner f with
  | ok t =>
    rw [hr] at h
    exact Except.noConfusion h
  | error e0 =>
    rw [hr] at h
    have h2 : Except.error (α := Table) (PError.runtimeError
        ("An error occurred while reading the file: " ++ e0.msg)) = Except.error e := h
    injection h2 with h3
    exact ⟨_, h3.symm⟩

/-- C10: addPauseTimeNullCol returns its input unchanged whenever the
total_time or the water_usage column is absent — no pause_time column is
inserted and no error is raised. -/
theorem claim_C10_pause_guard (t : Table)
    (h : hasCol t "total_time" = false ∨ hasCol t "water_usage" = false) :
    addPauseTimeNullCol t = t := by
  unfold addPauseTimeNullCol
  rcases h with h | h
  · rw [if_neg (by rw [h]; simp)]
  · rw [if_neg (by rw [h]; simp)]

/-- Closed instance of claim C10: a raw export table (which has neither
canonical label) passes through addPauseTimeNullCol unchanged. -/
theorem claim_C10_witness : addPauseTimeNullCol wMetricTable = wMetricTable :=
  claim_C10_pause_guard wMetricTable (Or.inl (by decide))

/-- C5: the imperial pipeline converts the volume column by multiplying by
exactly 3.785411784 and rounding to 4 decimal places, and the area-bearing
columns by multiplying by exactly 0.09290304 and rounding to 3 decimal
places (first six conjuncts, covering float and integer cells of the
conversion functions the pipeline applies); a numeric 10 in the gallons
column yields 37.8541 and a numeric 100 in a square-feet column yields
9.290 (rounding conjuncts), and a closed imperial run on such a row
produces exactly those converted cells (final conjunct). -/
theorem claim_C5_unit_conversion :
    gallon = 3.785411784 ∧
    feet_squared = 0.09290304 ∧
    (∀ q : ℚ, caWaterCell (Cell.float q) =
      Except.ok (Cell.float (roundTo (q * gallon) 4))) ∧
    (∀ n : Int, caWaterCell (Cell.int n) =
      Except.ok (Cell.float (roundTo ((n : ℚ) * gallon) 4))) ∧
    (∀ q : ℚ, caCommaCell (Cell.float q) =
      Except.ok (Cell.float (roundTo (q * feet_squared) 3))) ∧
    (∀ n : Int, caCommaCell (Cell.int n) =
      Except.ok (Cell.float (roundTo ((n : ℚ) * feet_squared) 3))) ∧
    roundTo (((10 : Int) : ℚ) * gallon) 4 = 37.8541 ∧
    roundTo (((100 : Int) : ℚ) * feet_squared) 3 = 9.290 ∧
    (Except.map (fun t => t.rows.map (fun r =>
        (rlookup r "Water usage (gal)", rlookup r "Actual cleaning area(ft²)")))
      (process_ca_data wCaFile wCutoffStr wAdj [])) =
    Except.ok [(some (Cell.float (roundTo (((10 : Int) : ℚ) * gallon) 4)),
                some (Cell.float (roundTo (((100 : Int) : ℚ) * feet_squared) 3)))] := by
  refine ⟨rfl, rfl, fun q => rfl, fun n => rfl, fun q => rfl, fun n => rfl, ?_, ?_, rfl⟩
  · rw [roundTo, gallon]
    norm_num [round_eq]
  · rw [roundTo, feet_squared]
    norm_num [round_eq]

/-! Numericity of the cleanup outputs (toolkit for claim C6). -/

theorem cleanupCellMetric_numeric {c0 cl : Cell}
    (h : cleanupCellMetric c0 = Except.ok cl) : numericOrNa cl := by
  cases c0 with
  | str s =>
    have h2 : (match parseDecimal (if stripCommas s = "0.00" then "0"
        else if stripCommas s = "100.00" then "100" else stripCommas s) with
      | some q => Except.ok (Cell.float q)
      | none => Except.error (PError.valueError ("could not convert string to float: "
          ++ (if stripCommas s = "0.00" then "0"
              else if stripCommas s = "100.00" then "100" else stripCommas s)))) =
        Except.ok cl := h
    cases hp : parseDecimal (if stripCommas s = "0.00" then "0"
        else if stripCommas s = "100.00" then "100" else stripCommas s) with
    | some q =>
      rw [hp] at h2
      injection h2 with h2
      exact Or.inl ⟨q, h2.symm⟩
    | none =>
      rw [hp] at h2
      exact Except.noConfusion h2
  | int n =>
    injection h with h
    exact Or.inl ⟨_, h.symm⟩
  | float q =>
    injection h with h
    exact Or.inl ⟨_, h.symm⟩
  | time d => exact Except.noConfusion h
  | na =>
    injection h with h
    exact Or.inr h.symm

theorem caWaterCell_numeric {c0 cl : Cell}
    (h : caWaterCell c0 = Except.ok cl) : numericOrNa cl := by
  cases c0 with
  | str s => exact Except.noConfusion h
  | int n =>
    injection h with h
    exact Or.inl ⟨_, h.symm⟩
  | float q =>
    injection h with h
    exact Or.inl ⟨_, h.symm⟩
  | time d => exact Except.noConfusion h
  | na =>
    injection h with h
    exact Or.inr h.symm

theorem caCommaCell_numeric {c0 cl : Cell}
    (h : caCommaCell c0 = Except.ok cl) : numericOrNa cl := by
  cases c0 with
  | str s =>
    have h2 : (match parseDecimal (stripCommas s) with
      | some q => Except.ok (Cell.float (roundTo (q * feet_squared) 3))
      | none => Except.error (PError.valueError ("Unable to parse string "
          ++ stripCommas s))) = Except.ok cl := h
    cases hp : parseDecimal (stripCommas s) with
    | some q =>
      rw [hp] at h2
      injection h2 with h2
      exact Or.inl ⟨_, h2.symm⟩
    | none =>
      rw [hp] at h2
      exact Except.noConfusion h2
  | int n =>
    injection h with h
    exact Or.inl ⟨_, h.symm⟩
  | float q =>
    injection h with h
    exact Or.inl ⟨_, h.symm⟩
  | time d => exact Except.noConfusion h
  | na =>
    injection h with h
    exact Or.inr h.symm

theorem caPctCell_numeric {c0 cl : Cell}
    (h : caPctCell c0 = Except.ok cl) : numericOrNa cl := by
  cases c0 with
  | str s =>
    have h2 : (match parseDecimal (if s = "0.0" then "0"
        else if s = "100.00" then "100" else s) with
      | some q => Except.ok (Cell.float q)
      | none => Except.error (PError.valueError ("could not convert string to float: "
          ++ (if s = "0.0" then "0" else if s = "100.00" then "100" else s)))) =
        Except.ok cl := h
    cases hp : parseDecimal (if s = "0.0" then "0"
        else if s = "100.00" then "100" else s) with
    | some q =>
      rw [hp] at h2
      injection h2 with h2
      exact Or.inl ⟨_, h2.symm⟩
    | none =>
      rw [hp] at h2
      exact Except.noConfusion h2
  | int n =>
    injection h with h
    exact Or.inl ⟨_, h.symm⟩
  | float q =>
    injection h with h
    exact Or.inl ⟨_, h.symm⟩
  | time d => exact Except.noConfusion h
  | na =>
    injection h with h
    exact Or.inr h.symm

theorem mapEntry_numAt {n c : String} {f : Cell → Except PError Cell}
    (hf : ∀ c0 cl, f c0 = Except.ok cl → numericOrNa cl)
    {r r2 : List Entry} (hF : mapEntryM n f r = Except.ok r2)
    (hP : NumAt c r) : NumAt c r2 := by
  by_cases hcn : c = n
  · subst hcn
    intro cl hl
    obtain ⟨c0, _, hfc⟩ := mapEntryM_rlookup_eq hF hl
    exact hf c0 cl hfc
  · intro cl hl
    rw [mapEntryM_rlookup_ne hcn hF] at hl
    exact hP cl hl

theorem mapEntry_numAt_new {n : String} {f : Cell → Except PError Cell}
    (hf : ∀ c0 cl, f c0 = Except.ok cl → numericOrNa cl)
    {r r2 : List Entry} (hF : mapEntryM n f r = Except.ok r2) : NumAt n r2 := by
  intro cl hl
  obtain ⟨c0, _, hfc⟩ := mapEntryM_rlookup_eq hF hl
  exact hf c0 cl hfc

theorem cleanupColMetric_pres_numAt {t t2 : Table} {n c : String}
    (h : cleanupColMetricF t n = Except.ok t2)
    (hall : ∀ r ∈ t.rows, NumAt c r) : ∀ r2 ∈ t2.rows, NumAt c r2 := by
  rcases (cleanupColMetricF_ok h).2 with heq | hf
  · subst heq
    exact hall
  · exact forall2_rowsP hf (fun r r2 hF hP =>
      mapEntry_numAt (fun c0 cl hc => cleanupCellMetric_numeric hc) hF hP) hall

theorem cleanupFold_pres_numAt {names : List String} {t t2 : Table} {c : String}
    (h : names.foldlM cleanupColMetricF t = Except.ok t2)
    (hall : ∀ r ∈ t.rows, NumAt c r) : ∀ r2 ∈ t2.rows, NumAt c r2 := by
  refine foldlM_rel (R := fun a b => (∀ r ∈ a.rows, NumAt c r) → ∀ r2 ∈ b.rows, NumAt c r2)
    (fun _ h1 => h1) (fun _ _ _ hab hbc h1 => hbc (hab h1)) cleanupColMetricF names t t2
    ?_ h hall
  intro s n s2 _ hs
  exact cleanupColMetric_pres_numAt hs

theorem applyCol_pres_numAt {t t2 : Table} {n c : String} {f : Cell → Except PError Cell}
    (hf : ∀ c0 cl, f c0 = Except.ok cl → numericOrNa cl)
    (h : applyColF t n f = Except.ok t2)
    (hall : ∀ r ∈ t.rows, NumAt c r) : ∀ r2 ∈ t2.rows, NumAt c r2 :=
  forall2_rowsP (applyColF_ok h).2.2
    (fun r r2 hF hP => mapEntry_numAt hf hF hP) hall

theorem applyColFold_pres_numAt {names : List String} {t t2 : Table} {c : String}
    {f : Cell → Except PError Cell}
    (hf : ∀ c0 cl, f c0 = Except.ok cl → numericOrNa cl)
    (h : names.foldlM (fun acc n => applyColF acc n f) t = Except.ok t2)
    (hall : ∀ r ∈ t.rows, NumAt c r) : ∀ r2 ∈ t2.rows, NumAt c r2 := by
  refine foldlM_rel (R := fun a b => (∀ r ∈ a.rows, NumAt c r) → ∀ r2 ∈ b.rows, NumAt c r2)
    (fun _ h1 => h1) (fun _ _ _ hab hbc h1 => hbc (hab h1))
    (fun acc n => applyColF acc n f) names t t2 ?_ h hall
  intro s n s2 _ hs
  exact applyCol_pres_numAt hf hs

theorem applyColFold_numAt {names : List String} {c : String}
    {f : Cell → Except PError Cell}
    (hf : ∀ c0 cl, f c0 = Except.ok cl → numericOrNa cl) :
    ∀ {t t2 : Table}, names.foldlM (fun acc n => applyColF acc n f) t = Except.ok t2 →
      c ∈ names → ∀ r2 ∈ t2.rows, NumAt c r2 := by
  induction names with
  | nil =>
    intro t t2 _ hc
    simp at hc
  | cons n ns ih =>
    intro t t2 h hc
    simp only [List.foldlM_cons] at h
    rw [except_bind_ok] at h
    obtain ⟨t1, h1, h⟩ := h
    by_cases hcn : c ∈ ns
    · exact ih h hcn
    · have hcn2 : c = n := by
        rcases List.mem_cons.mp hc with rfl | h2
        · rfl
        · exact absurd h2 hcn
      subst hcn2
      have hnum1 : ∀ r1 ∈ t1.rows, NumAt c r1 := by
        intro r1 hr1
        obtain ⟨r, hr, hF⟩ := forall2_mem_right (applyColF_ok h1).2.2 hr1
        exact mapEntry_numAt_new hf hF
      exact applyColFold_pres_numAt hf h hnum1

theorem find_cols_map (cols : List (String × Dtype)) (c : String)
    (g : String → Dtype → Dtype) :
    (cols.map (fun p => (p.1, g p.1 p.2))).find? (fun p => p.1 == c)
      = (cols.find? (fun p => p.1 == c)).map (fun p => (p.1, g p.1 p.2)) := by
  induction cols with
  | nil => rfl
  | cons p ps ih =>
    cases hp : (p.1 == c)
    · simp only [List.map_cons, List.find?_cons, hp]
      exact ih
    · simp only [List.map_cons, List.find?_cons, hp]
      rfl

theorem cleanupColMetricF_dtype_pres {t t2 : Table} {n c : String}
    (h : cleanupColMetricF t n = Except.ok t2)
    (hd : dtypeOf t c = Dtype.object ∨ dtypeOf t c = Dtype.float64) :
    dtypeOf t2 c = Dtype.object ∨ dtypeOf t2 c = Dtype.float64 := by
  unfold cleanupColMetricF at h
  by_cases hc : hasCol t n
  · rw [if_pos hc] at h
    by_cases hg : (dtypeOf t n == Dtype.object || dtypeOf t n == Dtype.float64) = true
    · rw [if_pos hg] at h
      rw [except_bind_ok] at h
      obtain ⟨rows2, _, h⟩ := h
      rw [except_pure_ok] at h
      subst h
      unfold dtypeOf
      rw [find_cols_map t.cols c (fun m d => if m == n then Dtype.float64 else d)]
      cases hf : t.cols.find? (fun p => p.1 == c) with
      | none => exact Or.inl rfl
      | some p =>
        simp only [Option.map_some', Option.getD_some]
        by_cases hpn : (p.1 == n) = true
        · right
          rw [if_pos hpn]
        · have hdc : dtypeOf t c = p.2 := by
            unfold dtypeOf
            rw [hf]
            rfl
          rw [hdc] at hd
          rw [if_neg hpn]
          exact hd
    · rw [if_neg hg] at h
      rw [except_pure_ok] at h
      subst h
      exact hd
  · rw [if_neg hc] at h
    exact Except.noConfusion h

theorem cleanupColMetricF_processed {t t2 : Table} {n : String}
    (h : cleanupColMetricF t n = Except.ok t2)
    (hd : dtypeOf t n = Dtype.object ∨ dtypeOf t n = Dtype.float64) :
    List.Forall₂ (fun r r2 => mapEntryM n cleanupCellMetric r = Except.ok r2)
      t.rows t2.rows := by
  unfold cleanupColMetricF at h
  by_cases hc : hasCol t n
  · rw [if_pos hc] at h
    have hg : (dtypeOf t n == Dtype.object || dtypeOf t n == Dtype.float64) = true := by
      rcases hd with hd | hd <;> simp [hd]
    rw [if_pos hg] at h
    rw [except_bind_ok] at h
    obtain ⟨rows2, hrows, h⟩ := h
    rw [except_pure_ok] at h
    subst h
    exact rowsMapM_ok_forall hrows
  · rw [if_neg hc] at h
    exact Except.noConfusion h

theorem cleanupFold_numAt {c : String} :
    ∀ {names : List String} {t t2 : Table},
      names.foldlM cleanupColMetricF t = Except.ok t2 → c ∈ names →
      (dtypeOf t c = Dtype.object ∨ dtypeOf t c = Dtype.float64) →
      ∀ r2 ∈ t2.rows, NumAt c r2 := by
  intro names
  induction names with
  | nil =>
    intro t t2 _ hc
    simp at hc
  | cons n ns ih =>
    intro t t2 h hc hd
    simp only [List.foldlM_cons] at h
    rw [except_bind_ok] at h
    obtain ⟨t1, h1, h⟩ := h
    by_cases hcn : c ∈ ns
    · exact ih h hcn (cleanupColMetricF_dtype_pres h1 hd)
    · have hceq : c = n := by
        rcases List.mem_cons.mp hc with h2 | h2
        · exact h2
        · exact absurd h2 hcn
      subst hceq
      have hrows := cleanupColMetricF_processed h1 hd
      have hnum1 : ∀ r1 ∈ t1.rows, NumAt c r1 := by
        intro r1 hr1
        obtain ⟨r, _, hF⟩ := forall2_mem_right hrows hr1
        exact mapEntry_numAt_new (fun c0 cl hcc => cleanupCellMetric_numeric hcc) hF
      exact cleanupFold_pres_numAt h hnum1

theorem cleanupCAF_numAt {t t2 : Table} (h : cleanupCAF t = Except.ok t2)
    {c : String}
    (hc : c = "Water usage (gal)" ∨ c ∈ columns_with_comma ∨ c ∈ columns_with_pct) :
    ∀ r2 ∈ t2.rows, NumAt c r2 := by
  unfold cleanupCAF at h
  rw [except_bind_ok] at h
  obtain ⟨ta, hw, h⟩ := h
  rw [except_bind_ok] at h
  obtain ⟨tb, hcm, hp⟩ := h
  rcases hc with hc | hc | hc
  · subst hc
    have hA : ∀ r ∈ ta.rows, NumAt "Water usage (gal)" r := by
      intro r1 hr1
      obtain ⟨r, _, hF⟩ := forall2_mem_right (applyColF_ok hw).2.2 hr1
      exact mapEntry_numAt_new (fun c0 cl hcc => caWaterCell_numeric hcc) hF
    have hB := applyColFold_pres_numAt
      (fun c0 cl hcc => caCommaCell_numeric hcc) hcm hA
    exact applyColFold_pres_numAt (fun c0 cl hcc => caPctCell_numeric hcc) hp hB
  · have hB := applyColFold_numAt (fun c0 cl hcc => caCommaCell_numeric hcc) hcm hc
    exact applyColFold_pres_numAt (fun c0 cl hcc => caPctCell_numeric hcc) hp hB
  · exact applyColFold_numAt (fun c0 cl hcc => caPctCell_numeric hcc) hp hc

/-- C6: numeric cleanup of the designated textual columns.  What the code
guarantees: at the metric cleanup step each designated column whose dtype
is object or float64 ends up all-float (or missing) — int64 columns are
skipped by the guard of line 192 — and the cleanup is the pipeline's last
step; the imperial pipeline leaves every water/area/percentage column
all-float on success; comma stripping and both literal edge replacements
happen in the metric cell cleaner, while the imperial percentage coercion
replaces "0.0" (not "0.00") and "100.00".  The imperial percentage columns
are NOT comma-stripped: a comma there aborts the run (see the
counterexample), so the spec's across-the-board comma-stripping sentence
does not hold as stated. -/
theorem claim_C6_numeric_cleanup :
    (∀ tp t, cleanupMetricF tp = Except.ok t →
      ∀ c ∈ columns_with_comma_or_pct,
        (dtypeOf tp c = Dtype.object ∨ dtypeOf tp c = Dtype.float64) →
        ∀ r ∈ t.rows, NumAt c r) ∧
    (∀ file s adj ex t, process_data file s adj ex = Except.ok t →
      ∃ tp, cleanupMetricF tp = Except.ok t) ∧
    (∀ file s adj ex t, process_ca_data file s adj ex = Except.ok t →
      ∀ c, (c = "Water usage (gal)" ∨ c ∈ columns_with_comma ∨ c ∈ columns_with_pct) →
        ∀ r ∈ t.rows, NumAt c r) ∧
    cleanupCellMetric (Cell.str "1,000.00") = Except.ok (Cell.float 1000) ∧
    cleanupCellMetric (Cell.str "0.00") = Except.ok (Cell.float 0) ∧
    cleanupCellMetric (Cell.str "100.00") = Except.ok (Cell.float 100) ∧
    caPctCell (Cell.str "0.0") = Except.ok (Cell.float 0) ∧
    caPctCell (Cell.str "100.00") = Except.ok (Cell.float 100) := by
  refine ⟨?_, ?_, ?_, ?_, ?_, ?_, ?_, ?_⟩
  · intro tp t h c hmem hd
    unfold cleanupMetricF at h
    exact cleanupFold_numAt h hmem hd
  · intro file s adj ex t h
    obtain ⟨df0, df1, df2, df3, cutoff, df6, df7, df8, _, _, _, _, _, _, _, _, hclean⟩ :=
      process_data_ok h
    exact ⟨fillNullF (replaceDash df8), hclean⟩
  · intro file s adj ex t h c hc
    obtain ⟨df0, df1, df2, df3, cutoff, df6, df7, df8, _, _, _, _, _, _, _, _, hclean⟩ :=
      process_ca_data_ok h
    exact cleanupCAF_numAt hclean hc
  · have h : cleanupCellMetric (Cell.str "1,000.00")
        = Except.ok (Cell.float (((1000 : ℕ) : ℚ) + ((0 : ℕ) : ℚ) / (10 : ℚ) ^ (2 : ℕ))) := rfl
    have hq : ((1000 : ℕ) : ℚ) + ((0 : ℕ) : ℚ) / (10 : ℚ) ^ (2 : ℕ) = 1000 := by norm_num
    rw [h, hq]
  · have h : cleanupCellMetric (Cell.str "0.00")
        = Except.ok (Cell.float ((0 : ℕ) : ℚ)) := rfl
    have hq : ((0 : ℕ) : ℚ) = 0 := by norm_num
    rw [h, hq]
  · have h : cleanupCellMetric (Cell.str "100.00")
        = Except.ok (Cell.float ((100 : ℕ) : ℚ)) := rfl
    have hq : ((100 : ℕ) : ℚ) = 100 := by norm_num
    rw [h, hq]
  · have h : caPctCell (Cell.str "0.0") = Except.ok (Cell.float ((0 : ℕ) : ℚ)) := rfl
    have hq : ((0 : ℕ) : ℚ) = 0 := by norm_num
    rw [h, hq]
  · have h : caPctCell (Cell.str "100.00") = Except.ok (Cell.float ((100 : ℕ) : ℚ)) := rfl
    have hq : ((100 : ℕ) : ℚ) = 100 := by norm_num
    rw [h, hq]

/-- C6 counterexample: the imperial pipeline does not strip commas from
the percentage columns.  On an otherwise-clean upload whose brush cell is
"1,000.00" the whole imperial run aborts with the float-coercion error,
whereas the metric cell cleaner accepts the very same string and yields
the float 1000. -/
theorem claim_C6_counterexample :
    process_ca_data wCaCommaFile wCutoffStr wAdj []
      = Except.error (PError.valueError "could not convert string to float: 1,000.00") ∧
    cleanupCellMetric (Cell.str "1,000.00") = Except.ok (Cell.float 1000) := by
  constructor
  · rfl
  · have h : cleanupCellMetric (Cell.str "1,000.00")
        = Except.ok (Cell.float (((1000 : ℕ) : ℚ) + ((0 : ℕ) : ℚ) / (10 : ℚ) ^ (2 : ℕ))) := rfl
    have hq : ((1000 : ℕ) : ℚ) + ((0 : ℕ) : ℚ) / (10 : ℚ) ^ (2 : ℕ) = 1000 := by norm_num
    rw [h, hq]

/-- C6 witness: the guarded metric cleanup leaves the brush column of a
concrete six-column table all-float; a successful metric run factors
through the cleanup; a successful imperial run leaves the water column
all-float. -/
theorem claim_C6_witness :
    (∃ t, cleanupMetricF wCleanTable = Except.ok t ∧
      ∀ r ∈ t.rows, NumAt "Brush (%)" r) ∧
    (∃ t, process_data wMetricFile wCutoffStr wAdj [] = Except.ok t ∧
      ∃ tp, cleanupMetricF tp = Except.ok t) ∧
    (∃ t, process_ca_data wCaFile wCutoffStr wAdj [] = Except.ok t ∧
      ∀ r ∈ t.rows, NumAt "Water usage (gal)" r) := by
  refine ⟨?_, ?_, ?_⟩
  · have hOk : (cleanupMetricF wCleanTable).isOk = true := by decide
    cases hC : cleanupMetricF wCleanTable with
    | error e =>
      rw [hC] at hOk
      exact Bool.noConfusion hOk
    | ok t =>
      exact ⟨t, rfl,
        claim_C6_numeric_cleanup.1 wCleanTable t hC "Brush (%)" (by decide) (Or.inl rfl)⟩
  · have hOk := wMetricRun_ok
    cases hE : process_data wMetricFile wCutoffStr wAdj [] with
    | error e =>
      rw [hE] at hOk
      exact Bool.noConfusion hOk
    | ok t =>
      exact ⟨t, rfl,
        claim_C6_numeric_cleanup.2.1 wMetricFile wCutoffStr wAdj [] t hE⟩
  · have hOk := wCaRun_ok
    cases hE : process_ca_data wCaFile wCutoffStr wAdj [] with
    | error e =>
      rw [hE] at hOk
      exact Bool.noConfusion hOk
    | ok t =>
      exact ⟨t, rfl,
        claim_C6_numeric_cleanup.2.2.1 wCaFile wCutoffStr wAdj [] t hE
          "Water usage (gal)" (Or.inl rfl)⟩

/-! Single versus double application of the exclusion filter (claim C8). -/

theorem except_ok_bind {α β : Type} (a : α) (f : α → Except PError β) :
    (Except.ok a >>= f) = f a := rfl

theorem contains_filter_drop (cols : List (String × Dtype)) (names : List String)
    (m : String) (hm : names.contains m = false) :
    ((cols.filter (fun p => !(names.contains p.1))).map (fun p => p.1)).contains m
      = (cols.map (fun p => p.1)).contains m := by
  induction cols with
  | nil => rfl
  | cons p ps ih =>
    by_cases hp : names.contains p.1 = true
    · have hpm : (m == p.1) = false := by
        cases hq : (m == p.1)
        · rfl
        · rw [eq_of_beq hq] at hm
          rw [hm] at hp
          exact Bool.noConfusion hp
      rw [List.filter_cons,
        if_neg (by simp only [hp, Bool.not_true]; exact Bool.false_ne_true),
        List.map_cons, List.contains_cons, hpm, Bool.false_or]
      exact ih
    · rw [List.filter_cons,
        if_pos (by simp only [Bool.not_eq_true] at hp; simp only [hp, Bool.not_false]),
        List.map_cons, List.map_cons, List.contains_cons, List.contains_cons]
      rw [ih]

theorem snMask_filter_drop {names : List String} (hm : names.contains "S/N" = false)
    (r : List Entry) (ex : List String) :
    snMask (r.filter (fun p => !(names.contains p.1))) ex = snMask r ex := by
  unfold snMask
  rw [rlookup_filter_names hm]

theorem snMask_insertId (r : List Entry) (ex : List String) :
    snMask (("Id", Cell.na) :: r) ex = snMask r ex := by
  unfold snMask
  rw [rlookup_cons, if_neg (by decide)]

theorem snMask_mapEntry_report {r r2 : List Entry} {ex : List String}
    (h : mapEntryM "Receive task report time" toDatetimeCell r = Except.ok r2) :
    snMask r2 ex = snMask r ex := by
  unfold snMask
  rw [mapEntryM_rlookup_ne (by decide) h]

/-- After the first exclusion pass, the drop, the id insert and the report
parse, every surviving row still fails the exclusion mask, so the second
application of the filter is the identity. -/
theorem snFilterOpt_second_noop {df0 df1 df2 df3 df4 : Table} {ex : List String}
    {cutoff : DateTime}
    (h1 : snFilterOpt df0 ex = Except.ok df1)
    (h2 : dropColumnsF df1 drop_columns_metric = Except.ok df2)
    (h3 : insertIdCol df2 = Except.ok df3)
    (h4 : toDatetimeColF df3 "Receive task report time" = Except.ok df4) :
    snFilterOpt (timeFilterF df4 "Receive task report time" cutoff) ex
      = Except.ok (timeFilterF df4 "Receive task report time" cutoff) := by
  by_cases hex : ex = []
  · unfold snFilterOpt
    rw [if_neg (by simp [hex])]
  · rcases snFilterOpt_ok_cases h1 with ⟨he, _⟩ | ⟨_, hsf⟩
    · exact absurd he hex
    · obtain ⟨hhas0, hcols1, hrows1⟩ := snFilter_ok hsf
      obtain ⟨_, hcols2, hrows2⟩ := dropColumnsF_ok h2
      obtain ⟨_, hcols3, hrows3⟩ := insertIdCol_ok h3
      obtain ⟨_, hcols4, hrows4⟩ := toDatetimeColF_ok h4
      have hmask1 : ∀ r ∈ df1.rows, snMask r ex = false := snFilterOpt_ok_mask hex h1
      have hmask2 : ∀ r ∈ df2.rows, snMask r ex = false := by
        intro r hr
        rw [hrows2] at hr
        obtain ⟨r0, hr0, hr0e⟩ := List.mem_map.mp hr
        subst hr0e
        rw [snMask_filter_drop (by decide)]
        exact hmask1 r0 hr0
      have hmask3 : ∀ r ∈ df3.rows, snMask r ex = false := by
        intro r hr
        rw [hrows3] at hr
        obtain ⟨r0, hr0, hr0e⟩ := List.mem_map.mp hr
        subst hr0e
        rw [snMask_insertId]
        exact hmask2 r0 hr0
      have hmask4 : ∀ r ∈ df4.rows, snMask r ex = false := by
        intro r hr
        obtain ⟨r0, hr0, hF⟩ := forall2_mem_right hrows4 hr
        rw [snMask_mapEntry_report hF]
        exact hmask3 r0 hr0
      have hhas2 : hasCol df2 "S/N" = true := by
        unfold hasCol colNames
        rw [hcols2, hcols1]
        rw [contains_filter_drop df0.cols drop_columns_metric "S/N" (by decide)]
        exact hhas0
      have hhas3 : hasCol df3 "S/N" = true := by
        unfold hasCol colNames
        rw [hcols3, List.map_cons, List.contains_cons]
        unfold hasCol colNames at hhas2
        rw [hhas2, Bool.or_true]
      have hhas4 : hasCol df4 "S/N" = true := by
        unfold hasCol
        rw [hcols4]
        exact hhas3
      unfold snFilterOpt
      rw [if_pos (by simpa using hex)]
      unfold snFilter
      rw [if_pos (by
        rw [hasCol_congr_cols (timeFilterF_cols df4 "Receive task report time" cutoff)]
        exact hhas4)]
      have hkeep : (timeFilterF df4 "Receive task report time" cutoff).rows.filter
          (fun r => !(snMask r ex))
            = (timeFilterF df4 "Receive task report time" cutoff).rows := by
        apply List.filter_eq_self.mpr
        intro r hr
        rw [(hmask4 r (timeFilterF_mem hr).1)]
        rfl
      rw [table_eta _ _ hkeep]

/-- Congruence for Except bind that hands the success equation to the
continuation comparison. -/
theorem except_bind_congr {α β : Type} {x : Except PError α}
    {f g : α → Except PError β}
    (h : ∀ a, x = Except.ok a → f a = g a) : (x >>= f) = (x >>= g) := by
  cases x with
  | error e => rfl
  | ok a => exact h a rfl

/-- Removing the second application of the exclusion filter does not change
the metric pipeline on any input: by the time the second filter runs, every
surviving row already fails the exclusion mask. -/
theorem process_data_single_eq (file : PyFile) (s : String) (adj : DateTime)
    (ex : List String) :
    process_data_single file s adj ex = process_data file s adj ex := by
  unfold process_data_single process_data
  refine except_bind_congr (fun df0 h0 => ?_)
  refine except_bind_congr (fun df1 h1 => ?_)
  refine except_bind_congr (fun df2 h2 => ?_)
  refine except_bind_congr (fun df3 h3 => ?_)
  refine except_bind_congr (fun cutoff hc => ?_)
  refine except_bind_congr (fun df4 h4 => ?_)
  simp only [snFilterOpt_second_noop h1 h2 h3 h4, except_ok_bind]

theorem wNaSNRun_ok :
    (process_data wNaSNFile wCutoffStr wAdj ["NULL"]).isOk = true := by
  decide

/-- C8: what the exclusion filter actually guarantees.  On a successful
metric run with a non-empty exclusion list, an output row's serial-number
cell can be a member of the list only if it is the "NULL" sentinel — the
later dash replacement and NaN fill (utils.py lines 167-168) run after
both filter applications and can re-introduce exactly that string.  The
single-application variant of the pipeline is behaviorally identical to
the code's double application on every input. -/
theorem claim_C8_exclusion :
    (∀ file s adj ex t, ex ≠ [] → process_data file s adj ex = Except.ok t →
      ∀ r ∈ t.rows, ∀ c, rlookup r "S/N" = some c → cellInList c ex = true →
        c = Cell.str "NULL") ∧
    (∀ file s adj ex,
      process_data_single file s adj ex = process_data file s adj ex) := by
  constructor
  · intro file s adj ex t hex h r hr c hc hin
    obtain ⟨cutoff, _, _, _, _, _, _, hSN⟩ := process_data_master h
    exact hSN hex r hr c hc hin
  · exact process_data_single_eq

/-- C8 counterexample: with exclusion list ["NULL"] and an upload whose
serial-number cell is missing, the run succeeds and its output row's
serial-number value "NULL" is a member of the exclusion list: the row was
invisible to both isin filters (NaN matches nothing) and the NaN fill
stamped the excluded string afterwards. -/
theorem claim_C8_counterexample :
    ∃ t, process_data wNaSNFile wCutoffStr wAdj ["NULL"] = Except.ok t ∧
      ∃ r, r ∈ t.rows ∧ rlookup r "S/N" = some (Cell.str "NULL") ∧
        cellInList (Cell.str "NULL") ["NULL"] = true := by
  have hOk := wNaSNRun_ok
  cases hE : process_data wNaSNFile wCutoffStr wAdj ["NULL"] with
  | error e =>
    rw [hE] at hOk
    exact Bool.noConfusion hOk
  | ok t =>
    have hsn : (process_data wNaSNFile wCutoffStr wAdj ["NULL"]).map
        (fun t => t.rows.map (fun r => rlookup r "S/N"))
          = Except.ok [some (Cell.str "NULL")] := rfl
    rw [hE] at hsn
    have hsn2 : t.rows.map (fun r => rlookup r "S/N") = [some (Cell.str "NULL")] := by
      have h2 : (Except.ok (t.rows.map (fun r => rlookup r "S/N")) :
          Except PError (List (Option Cell))) = Except.ok [some (Cell.str "NULL")] := hsn
      injection h2
    cases hrows : t.rows with
    | nil =>
      rw [hrows] at hsn2
      exact List.noConfusion hsn2
    | cons r rs =>
      rw [hrows] at hsn2
      rw [List.map_cons] at hsn2
      injection hsn2 with ha hb
      exact ⟨t, rfl, r, by rw [hrows]; exact List.mem_cons_self r rs, ha, by decide⟩

/-- C8 witness: the weakened exclusion guarantee evaluated on the
missing-serial run with exclusion list ["NULL"], and the single-vs-double
equivalence evaluated at the concrete metric upload. -/
theorem claim_C8_witness :
    (∃ t, process_data wNaSNFile wCutoffStr wAdj ["NULL"] = Except.ok t ∧
      ∀ r ∈ t.rows, ∀ c, rlookup r "S/N" = some c →
        cellInList c ["NULL"] = true → c = Cell.str "NULL") ∧
    process_data_single wMetricFile wCutoffStr wAdj []
      = process_data wMetricFile wCutoffStr wAdj [] := by
  constructor
  · have hOk := wNaSNRun_ok
    cases hE : process_data wNaSNFile wCutoffStr wAdj ["NULL"] with
    | error e =>
      rw [hE] at hOk
      exact Bool.noConfusion hOk
    | ok t =>
      exact ⟨t, rfl, claim_C8_exclusion.1 wNaSNFile wCutoffStr wAdj ["NULL"] t
        (by simp) hE⟩
  · exact claim_C8_exclusion.2 wMetricFile wCutoffStr wAdj []


/-! Finalization of the uploaded file (claim C9). -/



theorem colNames_renameColsF (t : Table) :
    colNames (renameColsF t) = (colNames t).map renameName := by
  simp [colNames, renameColsF, List.map_map]

theorem rowNames_renameRow (r : List Entry) :
    rowNames (r.map (fun p => (renameName p.1, p.2))) = (rowNames r).map renameName := by
  simp [rowNames, List.map_map]

theorem setOrAppendCol_not {t : Table} {n : String} {c : Cell}
    (h : hasCol t n = false) : setOrAppendCol t n c = appendCol t n c := by
  unfold setOrAppendCol
  rw [if_neg (by rw [h]; exact Bool.false_ne_true)]

theorem rlookup_append_single_found {r : List Entry} {m : String} {x : Cell}
    (h : rlookup r m = some x) (n : String) (c : Cell) :
    rlookup (r ++ [(n, c)]) m = some x := by
  rw [rlookup_append, h]
  rfl

theorem addTwoNullCols_spec {t2 : Table} (hj : hasCol t2 "job_id" = false)
    (hv : hasCol t2 "vendor" = false) :
    colNames (addTwoNullCols t2) = colNames t2 ++ ["job_id", "vendor"] ∧
    ∀ r3 ∈ (addTwoNullCols t2).rows, ∃ r2 ∈ t2.rows,
      r3 = (r2 ++ [("job_id", Cell.str "NULL")]) ++ [("vendor", Cell.str "NULL")] := by
  unfold addTwoNullCols
  rw [setOrAppendCol_not hj]
  have hv2 : hasCol (appendCol t2 "job_id" (Cell.str "NULL")) "vendor" = false := by
    rw [hasCol_appendCol, hv]
    rfl
  rw [setOrAppendCol_not hv2]
  constructor
  · rw [colNames_appendCol, colNames_appendCol, List.append_assoc]
    rfl
  · intro r3 hr3
    obtain ⟨r2a, hr2a, hr2ae⟩ := List.mem_map.mp hr3
    obtain ⟨r2, hr2, hr2e⟩ := List.mem_map.mp hr2a
    exact ⟨r2, hr2, by rw [← hr2ae, ← hr2e]⟩

theorem match_ok_eq {e : Except PError Table} {T fb : Table} (h : e = Except.ok T) :
    (match e with | Except.ok t2 => t2 | Except.error _ => fb) = T := by
  subst h
  rfl

theorem selectColsF_all_ok {t : Table} {order : List String}
    (hall : order.all (fun n => hasCol t n) = true) :
    selectColsF t order = Except.ok
      { cols := order.map (fun n => (n, dtypeOf t n)),
        rows := t.rows.map (fun r => order.map (fun n => (n, (rlookup r n).getD Cell.na))) } := by
  unfold selectColsF
  rw [if_pos hall]

theorem addPause_spec {t1 : Table}
    (hcols : colNames t1 = column_order_metric.map renameName) :
    addPauseTimeNullCol t1 =
      { cols := pause_inserted_order.map
          (fun n => (n, dtypeOf (appendCol t1 "pause_time" (Cell.str "NULL")) n)),
        rows := t1.rows.map (fun r =>
          pause_inserted_order.map (fun n =>
            (n, (rlookup (r ++ [("pause_time", Cell.str "NULL")]) n).getD Cell.na))) } := by
  have hpf : hasCol t1 "pause_time" = false := by
    unfold hasCol
    rw [hcols]
    decide
  have hguard : (hasCol t1 "total_time" && hasCol t1 "water_usage") = true := by
    unfold hasCol
    rw [hcols]
    decide
  simp only [addPauseTimeNullCol]
  rw [if_pos hguard, setOrAppendCol_not hpf]
  rw [colNames_appendCol, hcols]
  have hlist : (((column_order_metric.map renameName ++ ["pause_time"]).erase
        "pause_time").take
      ((((column_order_metric.map renameName ++ ["pause_time"]).erase
        "pause_time").indexOf "total_time") + 1)) ++
      ("pause_time" ::
      (((column_order_metric.map renameName ++ ["pause_time"]).erase
        "pause_time").drop
        ((((column_order_metric.map renameName ++ ["pause_time"]).erase
          "pause_time").indexOf "total_time") + 1))) = pause_inserted_order := by
    decide
  rw [hlist]
  have hall : pause_inserted_order.all
      (fun n => hasCol (appendCol t1 "pause_time" (Cell.str "NULL")) n) = true := by
    have hbase : pause_inserted_order.all
        (fun n => (column_order_metric.map renameName ++ ["pause_time"]).contains n)
          = true := by
      decide
    simp only [hasCol, colNames_appendCol, hcols]
    exact hbase
  rw [selectColsF_all_ok hall]
  rw [show (appendCol t1 "pause_time" (Cell.str "NULL")).rows
      = t1.rows.map (fun r => r ++ [("pause_time", Cell.str "NULL")]) from rfl,
    List.map_map]
  rfl

theorem uploaded_tail_eq (file : PyFile) (s : String) (adj : DateTime)
    (srv : String) (ex : List String) :
    process_uploaded_file file s adj srv ex =
      if (srv == "GS CA") = true then
        process_ca_data file s adj ex >>= fun df =>
          pure (if srv ≠ "GS SGV1" then
              addTwoNullCols (if (srv == "GS SGV2" || srv == "GS AUS") = true
                then addPauseTimeNullCol (renameColsF df) else renameColsF df)
            else (if (srv == "GS SGV2" || srv == "GS AUS") = true
                then addPauseTimeNullCol (renameColsF df) else renameColsF df))
      else
        process_data file s adj ex >>= fun df =>
          pure (if srv ≠ "GS SGV1" then
              addTwoNullCols (if (srv == "GS SGV2" || srv == "GS AUS") = true
                then addPauseTimeNullCol (renameColsF df) else renameColsF df)
            else (if (srv == "GS SGV2" || srv == "GS AUS") = true
                then addPauseTimeNullCol (renameColsF df) else renameColsF df)) := by
  rfl

/-- C9: on any successful upload run for the pause-enabled servers GS SGV2
and GS AUS, the finalized table's columns are exactly the canonical
pause_servers_order — in which "pause_time" stands immediately after
"total_time" — and every row carries the string "NULL" there; for every
other server identity, no pause_time column appears in the finalized
table. -/
theorem claim_C9_pause_time :
    ∀ file s adj srv ex t,
      process_uploaded_file file s adj srv ex = Except.ok t →
      ((srv = "GS SGV2" ∨ srv = "GS AUS") →
        colNames t = pause_servers_order ∧
        ∀ r ∈ t.rows, rlookup r "pause_time" = some (Cell.str "NULL")) ∧
      (¬(srv = "GS SGV2" ∨ srv = "GS AUS") →
        (colNames t).contains "pause_time" = false) := by
  intro file s adj srv ex t h
  rw [uploaded_tail_eq] at h
  constructor
  · intro hsrv
    have hCA : (srv == "GS CA") = false := by
      rcases hsrv with rfl | rfl <;> decide
    have hP : (srv == "GS SGV2" || srv == "GS AUS") = true := by
      rcases hsrv with rfl | rfl <;> decide
    have hne : srv ≠ "GS SGV1" := by
      rcases hsrv with rfl | rfl <;> decide
    rw [hCA, if_neg Bool.false_ne_true] at h
    rw [except_bind_ok] at h
    obtain ⟨df, hdf, htail⟩ := h
    rw [except_pure_ok] at htail
    rw [if_pos hne, hP, if_pos rfl] at htail
    subst htail
    obtain ⟨cutoff, _, hcolsdf, hrownames, _, _, _, _⟩ := process_data_master hdf
    have hren : colNames (renameColsF df) = column_order_metric.map renameName := by
      rw [colNames_renameColsF, hcolsdf]
    have hspec := addPause_spec hren
    have hT2cols : colNames (addPauseTimeNullCol (renameColsF df))
        = pause_inserted_order := by
      rw [hspec]
      exact colNames_of_pairs pause_inserted_order _
    have hT2rows : ∀ r2 ∈ (addPauseTimeNullCol (renameColsF df)).rows,
        rlookup r2 "pause_time" = some (Cell.str "NULL") := by
      rw [hspec]
      intro r2 hr2
      obtain ⟨r1, hr1, hr1e⟩ := List.mem_map.mp hr2
      subst hr1e
      rw [rlookup_selRow _ pause_inserted_order "pause_time" (by decide)]
      have hnames : rowNames r1 = column_order_metric.map renameName := by
        obtain ⟨r0, hr0, hr0e⟩ := List.mem_map.mp hr1
        subst hr0e
        rw [rowNames_renameRow, hrownames r0 hr0]
      have hnone : rlookup r1 "pause_time" = none := by
        apply rlookup_eq_none_of_not_mem
        rw [hnames]
        decide
      rw [rlookup_append, hnone]
      rfl
    have hj : hasCol (addPauseTimeNullCol (renameColsF df)) "job_id" = false := by
      unfold hasCol
      rw [hT2cols]
      decide
    have hv : hasCol (addPauseTimeNullCol (renameColsF df)) "vendor" = false := by
      unfold hasCol
      rw [hT2cols]
      decide
    obtain ⟨hc3, hr3⟩ := addTwoNullCols_spec hj hv
    constructor
    · rw [hc3, hT2cols]
      rfl
    · intro r hr
      obtain ⟨r2, hr2, hre⟩ := hr3 r hr
      subst hre
      exact rlookup_append_single_found
        (rlookup_append_single_found (hT2rows r2 hr2) _ _) _ _
  · intro hsrv
    have h1 : (srv == "GS SGV2") = false := by
      cases hq : (srv == "GS SGV2")
      · rfl
      · exact absurd (Or.inl (eq_of_beq hq)) hsrv
    have h2 : (srv == "GS AUS") = false := by
      cases hq : (srv == "GS AUS")
      · rfl
      · exact absurd (Or.inr (eq_of_beq hq)) hsrv
    have hP : (srv == "GS SGV2" || srv == "GS AUS") = false := by
      rw [h1, h2]
      rfl
    by_cases hca : (srv == "GS CA") = true
    · rw [if_pos hca] at h
      rw [except_bind_ok] at h
      obtain ⟨df, hdf, htail⟩ := h
      rw [except_pure_ok] at htail
      rw [hP, if_neg Bool.false_ne_true] at htail
      obtain ⟨cutoff, _, hcolsdf, _⟩ := process_ca_data_master hdf
      have hren : colNames (renameColsF df) = column_order_ca.map renameName := by
        rw [colNames_renameColsF, hcolsdf]
      by_cases hsg : srv ≠ "GS SGV1"
      · rw [if_pos hsg] at htail
        subst htail
        have hj : hasCol (renameColsF df) "job_id" = false := by
          unfold hasCol
          rw [hren]
          decide
        have hv : hasCol (renameColsF df) "vendor" = false := by
          unfold hasCol
          rw [hren]
          decide
        obtain ⟨hc3, _⟩ := addTwoNullCols_spec hj hv
        rw [hc3, hren]
        decide
      · rw [if_neg hsg] at htail
        subst htail
        rw [hren]
        decide
    · rw [if_neg hca] at h
      rw [except_bind_ok] at h
      obtain ⟨df, hdf, htail⟩ := h
      rw [except_pure_ok] at htail
      rw [hP, if_neg Bool.false_ne_true] at htail
      obtain ⟨cutoff, _, hcolsdf, _⟩ := process_data_master hdf
      have hren : colNames (renameColsF df) = column_order_metric.map renameName := by
        rw [colNames_renameColsF, hcolsdf]
      by_cases hsg : srv ≠ "GS SGV1"
      · rw [if_pos hsg] at htail
        subst htail
        have hj : hasCol (renameColsF df) "job_id" = false := by
          unfold hasCol
          rw [hren]
          decide
        have hv : hasCol (renameColsF df) "vendor" = false := by
          unfold hasCol
          rw [hren]
          decide
        obtain ⟨hc3, _⟩ := addTwoNullCols_spec hj hv
        rw [hc3, hren]
        decide
      · rw [if_neg hsg] at htail
        subst htail
        rw [hren]
        decide

theorem wSGV2Run_ok :
    (process_uploaded_file wMetricFile wCutoffStr wAdj "GS SGV2" []).isOk = true := by
  decide

theorem wSGV1Run_ok :
    (process_uploaded_file wMetricFile wCutoffStr wAdj "GS SGV1" []).isOk = true := by
  decide

/-- C9 witness: the pause_time guarantees evaluated on a concrete metric
upload finalized for GS SGV2, and the absence of the column on the same
upload finalized for GS SGV1. -/
theorem claim_C9_witness :
    (∃ t, process_uploaded_file wMetricFile wCutoffStr wAdj "GS SGV2" [] = Except.ok t ∧
      colNames t = pause_servers_order ∧
      ∀ r ∈ t.rows, rlookup r "pause_time" = some (Cell.str "NULL")) ∧
    (∃ t, process_uploaded_file wMetricFile wCutoffStr wAdj "GS SGV1" [] = Except.ok t ∧
      (colNames t).contains "pause_time" = false) := by
  constructor
  · have hOk := wSGV2Run_ok
    cases hE : process_uploaded_file wMetricFile wCutoffStr wAdj "GS SGV2" [] with
    | error e =>
      rw [hE] at hOk
      exact Bool.noConfusion hOk
    | ok t =>
      exact ⟨t, rfl, (claim_C9_pause_time wMetricFile wCutoffStr wAdj "GS SGV2" [] t hE).1
        (Or.inl rfl)⟩
  · have hOk := wSGV1Run_ok
    cases hE : process_uploaded_file wMetricFile wCutoffStr wAdj "GS SGV1" [] with
    | error e =>
      rw [hE] at hOk
      exact Bool.noConfusion hOk
    | ok t =>
      exact ⟨t, rfl, (claim_C9_pause_time wMetricFile wCutoffStr wAdj "GS SGV1" [] t hE).2
        (by decide)⟩
